import Mathlib

/-!
# code-golf: the `POST /solution` handler

A shallow embedding of `routes/solution.go`: the handler `Solution`, its two
helpers `awardTrophy` and `queryBool`, and the collaborators it talks to
(catalogues, session, judge, database, logger, Discord).

Every call the handler makes to a collaborator is recorded, in program order,
in a trace of `Event`s.  A Go `panic` ends the run: the trace is kept up to the
call that failed and the run has no response.
-/

namespace CodeGolf

/-! ## Data model -/

/-- Go `database/sql.NullInt64`: the payload `Int64` and the flag `Valid`
(`Valid = false` stands for SQL `NULL`). -/
structure NullInt64 where
  Int64 : Int
  Valid : Bool
deriving DecidableEq

/-- Go `database/sql.NullBool`. -/
structure NullBool where
  Valid : Bool
  Bool : Bool
deriving DecidableEq

/-- What `Scan` stores into a `*sql.NullInt64`: a `NULL` column leaves the
zero payload and `Valid = false`. -/
def scanNullInt64 : Option Int → NullInt64
  | none => { Int64 := 0, Valid := false }
  | some v => { Int64 := v, Valid := true }

/-- What `Scan` stores into a `*sql.NullBool`. -/
def scanNullBool : Option Bool → NullBool
  | none => { Valid := false, Bool := false }
  | some b => { Valid := true, Bool := b }

/-- Modelled from the spec: the `From`/`To` member of `Golfer.RankUpdate`
(package `golfer` is not part of the sources at hand).  The spec calls it a
RankSnapshot with nullable `strokes`, nullable `rank` and `jointFlag`; the
handler reads `.Joint.Bool`, `.Rank.Int64` and `.Strokes.Int64`. -/
structure RankSnapshot where
  Joint : NullBool
  Rank : NullInt64
  Strokes : NullInt64
deriving DecidableEq

/-- Modelled from the spec: `Golfer.RankUpdate` (package `golfer` is not part
of the sources at hand): the metric name, the `From` and `To` snapshots and
the `Beat` count. -/
structure RankUpdate where
  Scoring : String
  From : RankSnapshot
  To : RankSnapshot
  Beat : NullInt64
deriving DecidableEq

/-- The zero value of a Go `sql.NullInt64`. -/
def NullInt64.zero : NullInt64 := { Int64 := 0, Valid := false }

/-- The zero value of a Go `sql.NullBool`. -/
def NullBool.zero : NullBool := { Valid := false, Bool := false }

/-- The zero value of a rank snapshot. -/
def RankSnapshot.zero : RankSnapshot :=
  { Joint := NullBool.zero, Rank := NullInt64.zero, Strokes := NullInt64.zero }

/-- The composite literal `Golfer.RankUpdate{Scoring: s}`. -/
def RankUpdate.placeholder (s : String) : RankUpdate :=
  { Scoring := s, From := RankSnapshot.zero, To := RankSnapshot.zero, Beat := NullInt64.zero }

/-- Modelled from the spec: the session's golfer (package `golfer` is not part
of the sources at hand); the handler reads `ID` and `Name`. -/
structure Golfer where
  ID : Int
  Name : String
deriving DecidableEq

/-- The decoded request body, `struct{ Code, Hole, Lang string }`. -/
structure In where
  Code : String
  Hole : String
  Lang : String
deriving DecidableEq

/-- Modelled from the spec: the value `hole.Play` returns (package `hole` is
not part of the sources at hand), the spec's JudgeResult. -/
structure Scorecard where
  Pass : Bool
  Timeout : Bool
  Args : List String
  Stderr : String
  Answer : String
  Stdout : String
  Took : Int
deriving DecidableEq

/-- One row of the fifteen columns selected from `save_solution(...)`, as the
database returns it (`none` is SQL `NULL`). -/
structure SaveRow where
  earned : List String
  old_bytes_joint : Option Bool
  old_bytes_rank : Option Int
  old_bytes : Option Int
  new_bytes_joint : Option Bool
  new_bytes_rank : Option Int
  new_bytes : Option Int
  beat_bytes : Option Int
  old_chars_joint : Option Bool
  old_chars_rank : Option Int
  old_chars : Option Int
  new_chars_joint : Option Bool
  new_chars_rank : Option Int
  new_chars : Option Int
  beat_chars : Option Int
deriving DecidableEq

/-- The columns of table `solutions` that the handler's queries read. -/
structure SolutionRow where
  user_id : Int
  hole : String
  lang : String
  failing : Bool
deriving DecidableEq

/-- A row of `chars_points` or of `bytes_points`: the golfer and the points
column (`none` is SQL `NULL`). -/
structure PointsRow where
  user_id : Int
  points : Option Int
deriving DecidableEq

/-- The five statements the handler passes to `queryBool`, with their
arguments. -/
inductive Query where
  /-- Statement `SELECT COUNT(DISTINCT lang) = ARRAY_LENGTH(ENUM_RANGE(NULL::lang), 1)
  FROM solutions WHERE NOT failing AND user_id = $1` -/
  | polyglot (userID : Int)
  /-- Statement `SELECT chars_points > 9000 FROM chars_points WHERE user_id = $1` -/
  | charsPoints (userID : Int)
  /-- Statement `SELECT bytes_points > 9000 FROM bytes_points WHERE user_id = $1` -/
  | bytesPoints (userID : Int)
  /-- Statement `SELECT COUNT(*) = 4 FROM solutions WHERE NOT failing AND hole = $1
  AND lang IN (java, javascript) AND user_id = $2` -/
  | caffeinated (hole : String) (userID : Int)
  /-- Statement `SELECT COUNT(*) = 4 FROM solutions WHERE NOT failing AND hole = $1
  AND lang IN (perl, raku) AND user_id = $2` -/
  | timToady (hole : String) (userID : Int)
deriving DecidableEq

/-- The arguments of the handler's one `log.Printf` call, in order (the format
string is fixed). -/
structure LogLine where
  name : String
  hole : String
  lang : String
  scoring : String
  fromStrokes : Int
  fromJoint : String
  fromRank : Int
  fromOrdinal : String
  toStrokes : Int
  toJoint : String
  toRank : Int
  toOrdinal : String
deriving DecidableEq

/-- A call from the handler to one of its collaborators. -/
inductive Event where
  /-- The judge call `hole.Play(ctx, hole, lang, code)`. -/
  | play (hole lang code : String)
  /-- The call `awardTrophy(db, userID, trophy)`: the `INSERT INTO trophies`. -/
  | awardTrophy (userID : Int) (trophy : String)
  /-- The `SELECT ... FROM save_solution(code, hole, lang, user_id)`. -/
  | saveSolution (code hole lang : String) (userID : Int)
  /-- A `queryBool` call. -/
  | queryBool (q : Query)
  /-- The `log.Printf` of a changed metric. -/
  | logPrintf (line : LogLine)
  /-- The dispatch `go discord.LogNewRecord(golfer, hole, lang, recordUpdates, db)`;
  the hole and the language are given by their catalogue keys. -/
  | logNewRecord (golfer : Golfer) (hole lang : String) (recordUpdates : List RankUpdate)
deriving DecidableEq

/-- The database behind `session.Database(r)`. -/
structure DB where
  /-- Whether the `INSERT INTO trophies ... ON CONFLICT DO NOTHING` for this
  golfer and trophy returns an error. -/
  execErr : Int → String → Bool
  /-- The row of `save_solution(code, hole, lang, user_id)`; `none` when
  the query or its `Scan` returns an error. -/
  saveSolution : String → String → String → Int → Option SaveRow
  /-- Table `solutions` as the queries that follow `save_solution` read it. -/
  solutions : List SolutionRow
  /-- The values of the enum type `lang`, `ENUM_RANGE(NULL::lang)`. -/
  langEnum : List String
  /-- Relation `chars_points`. -/
  chars_points : List PointsRow
  /-- Relation `bytes_points`. -/
  bytes_points : List PointsRow
  /-- Whether running this statement fails outright (connection lost, ...). -/
  queryErr : Query → Bool

/-- Everything outside the handler. -/
structure Env where
  /-- Keys of `hole.ByID`. -/
  holeByID : List String
  /-- Keys of `hole.ExperimentalByID`. -/
  holeExperimentalByID : List String
  /-- Keys of `lang.ByID`. -/
  langByID : List String
  /-- The result of `session.Golfer(r)`; `none` is the nil pointer. -/
  golfer : Option Golfer
  /-- The judge, `hole.Play`. -/
  play : String → String → String → Scorecard
  /-- The rendering `string(terminal.Render(stderr))`. -/
  render : String → String
  /-- The call `difflib.GetUnifiedDiffString` on expected and actual text. -/
  unifiedDiff : String → String → String
  /-- The suffix `pretty.Ordinal`. -/
  ordinal : Int → String
  db : DB
  /-- Month of `time.Now().UTC()`, January being 1. -/
  month : Nat
  /-- Day of the month of `time.Now().UTC()`. -/
  day : Nat
  /-- Whether `enc.Encode(&out)` returns an error. -/
  encodeErr : Bool

/-- The response body, the handler's `out`. -/
structure Output where
  Argv : List String
  Diff : String
  Err : String
  Exp : String
  Out : String
  Pass : Bool
  LoggedIn : Bool
  RankUpdates : List RankUpdate
  Took : Int
  Trophies : List String
deriving DecidableEq

/-- What the handler writes when it does not panic. -/
inductive Response where
  /-- Status `http.StatusNotFound`, no body. -/
  | notFound
  /-- Status `http.StatusRequestEntityTooLarge`, no body. -/
  | requestEntityTooLarge
  /-- Status 200 with `out` encoded as JSON. -/
  | json (out : Output)
deriving DecidableEq

/-! ## Runs -/

/-- A piece of the handler run: the calls it made, and its value unless it
panicked (`none`). -/
structure Step (α : Type) where
  trace : List Event
  result : Option α

/-- Sequencing: a panic of the first part ends the run. -/
def Step.bind {α β : Type} (x : Step α) (f : α → Step β) : Step β :=
  match x.result with
  | none => { trace := x.trace, result := none }
  | some a => { trace := x.trace ++ (f a).trace, result := (f a).result }

instance : Monad Step where
  pure a := { trace := [], result := some a }
  bind := Step.bind

/-- Go `panic(err)`. -/
def Step.panic {α : Type} : Step α := { trace := [], result := none }

/-- Month constants of package `time`. -/
abbrev time.January : Nat := 1
/-- Month constant. -/
abbrev time.March : Nat := 3
/-- Month constant. -/
abbrev time.May : Nat := 5
/-- Month constant. -/
abbrev time.July : Nat := 7
/-- Month constant. -/
abbrev time.October : Nat := 10
/-- Month constant. -/
abbrev time.December : Nat := 12

/-! ## The helpers -/

/-- The handler's `awardTrophy`: run the insert, panic on an error. -/
def awardTrophy (db : DB) (userID : Int) (trophy : String) : Step Unit :=
  { trace := [Event.awardTrophy userID trophy],
    result := if db.execErr userID trophy then none else some () }

/-- The rows of `solutions` a pair query counts:
`NOT failing AND hole = $1 AND lang IN (l1, l2) AND user_id = $2`. -/
def pairRows (db : DB) (hole : String) (l1 l2 : String) (userID : Int) : List SolutionRow :=
  db.solutions.filter fun r =>
    !r.failing && r.hole == hole && (r.lang == l1 || r.lang == l2) && r.user_id == userID

/-- The first row of a points relation `WHERE user_id = $1`, compared with
9000; no row, or a `NULL`, cannot be scanned into a `bool`. -/
def pointsOver9000 (rows : List PointsRow) (userID : Int) : Option Bool :=
  match rows.find? fun r => r.user_id == userID with
  | none => none
  | some r => r.points.map fun p => decide (p > 9000)

/-- The value a statement yields on the database; `none` when `Scan` cannot
store it into a `bool`. -/
def DB.eval (db : DB) : Query → Option Bool
  | .polyglot userID =>
    if db.langEnum.length = 0 then none
    else some (decide
      (((db.solutions.filter fun r => !r.failing && r.user_id == userID).map
          fun r => r.lang).eraseDups.length = db.langEnum.length))
  | .charsPoints userID => pointsOver9000 db.chars_points userID
  | .bytesPoints userID => pointsOver9000 db.bytes_points userID
  | .caffeinated hole userID =>
    some (decide ((pairRows db hole "java" "javascript" userID).length = 4))
  | .timToady hole userID =>
    some (decide ((pairRows db hole "perl" "raku" userID).length = 4))

/-- The handler's `queryBool`: run the statement, scan one `bool`, panic on
an error. -/
def queryBool (db : DB) (q : Query) : Step Bool :=
  { trace := [Event.queryBool q],
    result := if db.queryErr q then none else db.eval q }

/-! ## The handler -/

/-- The judge call `hole.Play(r.Context(), in.Hole, in.Lang, in.Code)`. -/
def play (env : Env) (inp : In) : Step Scorecard :=
  { trace := [Event.play inp.Hole inp.Lang inp.Code],
    result := some (env.play inp.Hole inp.Lang inp.Code) }

/-- The call `log.Printf` of the rank loop. -/
def logPrintf (line : LogLine) : Step Unit :=
  { trace := [Event.logPrintf line], result := some () }

/-- The statement `go discord.LogNewRecord(...)`. -/
def logNewRecord (golfer : Golfer) (hole lang : String) (recordUpdates : List RankUpdate) :
    Step Unit :=
  { trace := [Event.logNewRecord golfer hole lang recordUpdates], result := some () }

/-- The `QueryRowContext(... save_solution ...).Scan(...)` call: panic on an
error. -/
def saveSolution (db : DB) (inp : In) (userID : Int) : Step SaveRow :=
  { trace := [Event.saveSolution inp.Code inp.Hole inp.Lang userID],
    result := db.saveSolution inp.Code inp.Hole inp.Lang userID }

/-- The first rank update after the `Scan`: `Scoring` stays "bytes", the
other fields hold the seven bytes columns. -/
def bytesUpdate (row : SaveRow) : RankUpdate :=
  { RankUpdate.placeholder "bytes" with
    From := { Joint := scanNullBool row.old_bytes_joint,
              Rank := scanNullInt64 row.old_bytes_rank,
              Strokes := scanNullInt64 row.old_bytes }
    To := { Joint := scanNullBool row.new_bytes_joint,
            Rank := scanNullInt64 row.new_bytes_rank,
            Strokes := scanNullInt64 row.new_bytes }
    Beat := scanNullInt64 row.beat_bytes }

/-- The second rank update after the `Scan`: `Scoring` stays "chars", the
other fields hold the seven chars columns. -/
def charsUpdate (row : SaveRow) : RankUpdate :=
  { RankUpdate.placeholder "chars" with
    From := { Joint := scanNullBool row.old_chars_joint,
              Rank := scanNullInt64 row.old_chars_rank,
              Strokes := scanNullInt64 row.old_chars }
    To := { Joint := scanNullBool row.new_chars_joint,
            Rank := scanNullInt64 row.new_chars_rank,
            Strokes := scanNullInt64 row.new_chars }
    Beat := scanNullInt64 row.beat_chars }

/-- The effect of the `Scan` on `out`: `Trophies` and the two rank updates
are overwritten. -/
def scanInto (out : Output) (row : SaveRow) : Output :=
  { out with
    Trophies := row.earned
    RankUpdates := [bytesUpdate row, charsUpdate row] }

/-- The line the rank loop logs for a changed metric. -/
def logLine (ordinal : Int → String) (golfer : Golfer) (inp : In) (rank : RankUpdate) :
    LogLine :=
  { name := golfer.Name
    hole := inp.Hole
    lang := inp.Lang
    scoring := rank.Scoring
    fromStrokes := rank.From.Strokes.Int64
    fromJoint := if rank.From.Joint.Bool then "joint " else ""
    fromRank := rank.From.Rank.Int64
    fromOrdinal := ordinal rank.From.Rank.Int64
    toStrokes := rank.To.Strokes.Int64
    toJoint := if rank.To.Joint.Bool then "joint " else ""
    toRank := rank.To.Rank.Int64
    toOrdinal := ordinal rank.To.Rank.Int64 }

/-- The loop `for _, rank := range out.RankUpdates`, started with the record
list collected so far; it yields the final `recordUpdates`. -/
def rankLoop (ordinal : Int → String) (golfer : Golfer) (inp : In) :
    List RankUpdate → List RankUpdate → Step (List RankUpdate)
  | [], recordUpdates => pure recordUpdates
  | rank :: rest, recordUpdates =>
    if rank.From.Strokes.Int64 = rank.To.Strokes.Int64 then
      rankLoop ordinal golfer inp rest recordUpdates
    else do
      logPrintf (logLine ordinal golfer inp rank)
      if rank.To.Joint.Bool = false ∧ rank.To.Rank.Int64 = 1 then
        rankLoop ordinal golfer inp rest (recordUpdates ++ [rank])
      else
        rankLoop ordinal golfer inp rest recordUpdates

/-- The statement `switch in.Hole` of the calendar trophies. -/
def holeCalendar (db : DB) (userID : Int) (hole : String) (month day : Nat) : Step Unit :=
  if hole = "12-days-of-christmas" then
    if (month = time.December ∧ day ≥ 25) ∨ (month = time.January ∧ day ≤ 5) then
      awardTrophy db userID "twelvetide"
    else pure ()
  else if hole = "star-wars-opening-crawl" then
    if month = time.May ∧ day = 4 then
      awardTrophy db userID "may-the-4ᵗʰ-be-with-you"
    else pure ()
  else if hole = "united-states" then
    if month = time.July ∧ day = 4 then
      awardTrophy db userID "independence-day"
    else pure ()
  else if hole = "vampire-numbers" then
    if month = time.October ∧ day = 31 then
      awardTrophy db userID "vampire-byte"
    else pure ()
  else if hole = "π" then
    if month = time.March ∧ day = 14 then
      awardTrophy db userID "pi-day"
    else pure ()
  else pure ()

/-- The statement `switch in.Lang` of the language-pair trophies. -/
def langPairs (db : DB) (userID : Int) (inp : In) : Step Unit :=
  if inp.Lang = "java" ∨ inp.Lang = "javascript" then do
    if (← queryBool db (Query.caffeinated inp.Hole userID)) then
      awardTrophy db userID "caffeinated"
  else if inp.Lang = "perl" ∨ inp.Lang = "raku" then do
    if (← queryBool db (Query.timToady inp.Hole userID)) then
      awardTrophy db userID "tim-toady"
  else pure ()

/-- The anniversary rule `if month == time.October && day == 2`. -/
def birthday (db : DB) (userID : Int) (month day : Nat) : Step Unit :=
  if month = time.October ∧ day = 2 then
    awardTrophy db userID "happy-birthday-code-golf"
  else pure ()

/-- The coverage rule: the polyglot query and its grant. -/
def polyglot (db : DB) (userID : Int) : Step Unit := do
  if (← queryBool db (Query.polyglot userID)) then
    awardTrophy db userID "polyglot"

/-- The condition `queryBool(chars_points ...) || queryBool(bytes_points ...)`:
the second query runs only when the first yields false. -/
def over9000 (db : DB) (userID : Int) : Step Bool := do
  if (← queryBool db (Query.charsPoints userID)) then pure true
  else queryBool db (Query.bytesPoints userID)

/-- The threshold rule: the two points queries and the grant. -/
def itsOver9000 (db : DB) (userID : Int) : Step Unit := do
  if (← over9000 db userID) then
    awardTrophy db userID "its-over-9000"

/-- The trophy rules that follow the announcement, from
`now = time.Now().UTC()` to the end of the persisted branch. -/
def trophies (env : Env) (golfer : Golfer) (inp : In) : Step Unit := do
  birthday env.db golfer.ID env.month env.day
  holeCalendar env.db golfer.ID inp.Hole env.month env.day
  polyglot env.db golfer.ID
  itsOver9000 env.db golfer.ID
  langPairs env.db golfer.ID inp

/-- The statement `if len(recordUpdates) > 0 { go discord.LogNewRecord(...) }`. -/
def announce (golfer : Golfer) (inp : In) (recordUpdates : List RankUpdate) : Step Unit :=
  if recordUpdates.length > 0 then
    logNewRecord golfer inp.Hole inp.Lang recordUpdates
  else pure ()

/-- The body of `if out.Pass && golfer != nil && !experimental && in.Lang != "assembly"`. -/
def persist (env : Env) (golfer : Golfer) (inp : In) (out : Output) : Step Output := do
  let row ← saveSolution env.db inp golfer.ID
  let out := scanInto out row
  let recordUpdates ← rankLoop env.ordinal golfer inp out.RankUpdates []
  announce golfer inp recordUpdates
  trophies env golfer inp
  pure out

/-- The response body as built before the persisted branch. -/
def buildOut (env : Env) (score : Scorecard) : Output :=
  { Argv := score.Args
    Diff := env.unifiedDiff score.Answer score.Stdout
    Err := env.render score.Stderr
    Exp := score.Answer
    Out := score.Stdout
    Pass := score.Pass
    LoggedIn := env.golfer.isSome
    RankUpdates := [RankUpdate.placeholder "bytes", RankUpdate.placeholder "chars"]
    Took := score.Took
    Trophies := [] }

/-- The handler's local `experimental`: set by the lookup in
`hole.ExperimentalByID`, which runs only when `hole.ByID` has no such key. -/
def experimental (env : Env) (inp : In) : Bool :=
  !env.holeByID.contains inp.Hole && env.holeExperimentalByID.contains inp.Hole

/-- The condition `out.Pass && golfer != nil && !experimental && in.Lang != "assembly"`;
it yields the golfer when it holds. -/
def gate (env : Env) (inp : In) (out : Output) : Option Golfer :=
  match env.golfer with
  | some golfer =>
    if out.Pass && !experimental env inp && inp.Lang != "assembly" then some golfer else none
  | none => none

/-- The statement `if len(in.Code) >= 128*1024`'s grant:
`if golfer != nil { awardTrophy(db, golfer.ID, "tl-dr") }`. -/
def tlDr (env : Env) : Step Unit :=
  match env.golfer with
  | some golfer => awardTrophy env.db golfer.ID "tl-dr"
  | none => pure ()

/-- The statement `if score.Timeout && golfer != nil { awardTrophy(db, golfer.ID, "slowcoach") }`. -/
def slowcoach (env : Env) (score : Scorecard) : Step Unit :=
  match env.golfer with
  | some golfer => if score.Timeout then awardTrophy env.db golfer.ID "slowcoach" else pure ()
  | none => pure ()

/-- The persisted branch, entered when its condition holds. -/
def persisted (env : Env) (inp : In) (out : Output) : Step Output :=
  match gate env inp out with
  | some golfer => persist env golfer inp out
  | none => pure out

/-- The final `enc.Encode(&out)`: panic on an error. -/
def encode (env : Env) (out : Output) : Step Response :=
  if env.encodeErr then Step.panic else pure (Response.json out)

/-- The handler from `hole.Play` on, for a request that passed the three
checks. -/
def judged (env : Env) (inp : In) : Step Response := do
  let score ← play env inp
  slowcoach env score
  let out ← persisted env inp (buildOut env score)
  encode env out

/-- The handler `Solution` serves `POST /solution`; `body` is the outcome of decoding the
request body, `none` when the decoder returns an error. -/
def Solution (env : Env) (body : Option In) : Step Response :=
  match body with
  | none => Step.panic
  | some inp =>
    if !env.holeByID.contains inp.Hole && !env.holeExperimentalByID.contains inp.Hole then
      pure Response.notFound
    else if !env.langByID.contains inp.Lang && inp.Lang != "assembly" then
      pure Response.notFound
    else if inp.Code.utf8ByteSize ≥ 128 * 1024 then do
      tlDr env
      pure Response.requestEntityTooLarge
    else
      judged env inp

/-! ## Notions used by the statements -/

/-- The three checks before the judge: known hole, known or bypass language,
code shorter than 128 KiB. -/
def validated (env : Env) (inp : In) : Prop :=
  (inp.Hole ∈ env.holeByID ∨ inp.Hole ∈ env.holeExperimentalByID) ∧
  (inp.Lang ∈ env.langByID ∨ inp.Lang = "assembly") ∧
  inp.Code.utf8ByteSize < 131072

instance (env : Env) (inp : In) : Decidable (validated env inp) := by
  unfold validated; infer_instance

/-- The trophies the rules of the persisted branch can grant. -/
def ruleTrophies : List String :=
  ["happy-birthday-code-golf", "twelvetide", "may-the-4ᵗʰ-be-with-you", "independence-day",
   "vampire-byte", "pi-day", "polyglot", "its-over-9000", "caffeinated", "tim-toady"]

/-- A metric counts as changed when the two `Strokes.Int64` payloads differ. -/
def changed (rank : RankUpdate) : Bool :=
  decide (rank.From.Strokes.Int64 ≠ rank.To.Strokes.Int64)

/-- A changed metric is a new record when `To.Joint.Bool` is false and
`To.Rank.Int64` is 1. -/
def isRecord (rank : RankUpdate) : Bool :=
  changed rank && !rank.To.Joint.Bool && decide (rank.To.Rank.Int64 = 1)

/-- Whether a call is the Discord dispatch. -/
def Event.isLogNewRecord : Event → Bool
  | Event.logNewRecord _ _ _ _ => true
  | _ => false

/-! ## Concrete runs -/

/-- A source text of exactly 131072 bytes. -/
def bigCode : String := String.mk (List.replicate 131072 'a')

/-- The row `save_solution` returns to a golfer without an earlier solution
who takes the sole first place on bytes and a joint first place on chars. -/
def sampleRow : SaveRow :=
  { earned := ["hello-world"]
    old_bytes_joint := none, old_bytes_rank := none, old_bytes := none
    new_bytes_joint := some false, new_bytes_rank := some 1, new_bytes := some 10
    beat_bytes := some 3
    old_chars_joint := none, old_chars_rank := none, old_chars := none
    new_chars_joint := some true, new_chars_rank := some 1, new_chars := some 10
    beat_chars := none }

/-- A judge result: passed in time. -/
def samplePass : Scorecard :=
  { Pass := true, Timeout := false, Args := [], Stderr := "", Answer := "1", Stdout := "1",
    Took := 5 }

/-- A database on which nothing fails. -/
def sampleDB : DB :=
  { execErr := fun _ _ => false
    saveSolution := fun _ _ _ _ => some sampleRow
    solutions := []
    langEnum := ["python", "java", "javascript", "perl", "raku"]
    chars_points := [{ user_id := 1, points := some 10 }]
    bytes_points := [{ user_id := 1, points := some 10 }]
    queryErr := fun _ => false }

/-- A small site: two holes, one experimental hole, five languages, golfer 1
signed in, the date October 2. -/
def sampleEnv : Env :=
  { holeByID := ["fizz-buzz", "π"]
    holeExperimentalByID := ["lab-hole"]
    langByID := ["python", "java", "javascript", "perl", "raku"]
    golfer := some { ID := 1, Name := "ada" }
    play := fun _ _ _ => samplePass
    render := fun s => s
    unifiedDiff := fun _ _ => ""
    ordinal := fun _ => "th"
    db := sampleDB
    month := 10
    day := 2
    encodeErr := false }

/-- A judge result: failed by running out of time. -/
def sampleTimeout : Scorecard :=
  { Pass := false, Timeout := true, Args := [], Stderr := "killed", Answer := "1", Stdout := "",
    Took := 7 }

/-- The small site with a judge that times out. -/
def timeoutEnv : Env := { sampleEnv with play := fun _ _ _ => sampleTimeout }

/-- The small site with a judge whose run passes after the time budget. -/
def busyEnv : Env :=
  { sampleEnv with play := fun _ _ _ => { samplePass with Timeout := true } }

/-- The row `save_solution` returns when the golfer resubmits their own
record: strokes as before, still the sole first place on both metrics. -/
def retainRow : SaveRow :=
  { earned := []
    old_bytes_joint := some false, old_bytes_rank := some 1, old_bytes := some 10
    new_bytes_joint := some false, new_bytes_rank := some 1, new_bytes := some 10
    beat_bytes := none
    old_chars_joint := some false, old_chars_rank := some 1, old_chars := some 10
    new_chars_joint := some false, new_chars_rank := some 1, new_chars := some 10
    beat_chars := none }

/-- The small site on an ordinary day, with a store that answers `retainRow`. -/
def retainEnv : Env :=
  { sampleEnv with
    db := { sampleDB with saveSolution := fun _ _ _ _ => some retainRow }
    month := 6
    day := 15 }

/-- A row with no earlier strokes (`NULL`) and new strokes 0, first place. -/
def nullRow : SaveRow :=
  { earned := []
    old_bytes_joint := none, old_bytes_rank := none, old_bytes := none
    new_bytes_joint := some false, new_bytes_rank := some 1, new_bytes := some 0
    beat_bytes := none
    old_chars_joint := none, old_chars_rank := none, old_chars := none
    new_chars_joint := some false, new_chars_rank := some 1, new_chars := some 0
    beat_chars := none }

/-- The small site on an ordinary day, with a store that answers `nullRow`. -/
def nullEnv : Env :=
  { sampleEnv with
    db := { sampleDB with saveSolution := fun _ _ _ _ => some nullRow }
    month := 6
    day := 15 }

/-- The small site on an ordinary day; golfer 1 holds the four non-failing
rows of hole π in java and javascript, and four more in perl and raku; the
store answers `retainRow`. -/
def pairEnv : Env :=
  { sampleEnv with
    db := { sampleDB with
      saveSolution := fun _ _ _ _ => some retainRow
      solutions := [
        { user_id := 1, hole := "π", lang := "java", failing := false },
        { user_id := 1, hole := "π", lang := "java", failing := false },
        { user_id := 1, hole := "π", lang := "javascript", failing := false },
        { user_id := 1, hole := "π", lang := "javascript", failing := false },
        { user_id := 1, hole := "π", lang := "perl", failing := false },
        { user_id := 1, hole := "π", lang := "raku", failing := false },
        { user_id := 1, hole := "π", lang := "perl", failing := false },
        { user_id := 1, hole := "π", lang := "raku", failing := false }] }
    month := 6
    day := 15 }

/-- The small site with a judge whose run passes after the time budget and a
database on which the insert of `slowcoach` fails. -/
def slowFailEnv : Env :=
  { busyEnv with db := { sampleDB with execErr := fun _ trophy => trophy == "slowcoach" } }

/-! ## Runs: basic facts -/

section Basics

variable {α β : Type}

@[simp] theorem Step.trace_pure (a : α) : (pure a : Step α).trace = [] := rfl

@[simp] theorem Step.result_pure (a : α) : (pure a : Step α).result = some a := rfl

@[simp] theorem Step.trace_panic : (Step.panic : Step α).trace = [] := rfl

@[simp] theorem Step.result_panic : (Step.panic : Step α).result = none := rfl

theorem Step.trace_bind (x : Step α) (f : α → Step β) :
    (x >>= f).trace = x.trace ++ (match x.result with
      | none => []
      | some a => (f a).trace) := by
  show (Step.bind x f).trace = _
  unfold Step.bind
  cases x.result <;> simp

theorem Step.result_bind (x : Step α) (f : α → Step β) :
    (x >>= f).result = x.result.bind fun a => (f a).result := by
  show (Step.bind x f).result = _
  unfold Step.bind
  cases x.result <;> simp

theorem Step.mem_trace_bind (e : Event) (x : Step α) (f : α → Step β) :
    e ∈ (x >>= f).trace ↔ e ∈ x.trace ∨ ∃ a, x.result = some a ∧ e ∈ (f a).trace := by
  rw [Step.trace_bind]
  cases x.result <;> simp

end Basics

theorem Solution_of_validated (env : Env) (inp : In) (h : validated env inp) :
    Solution env (some inp) = judged env inp := by
  obtain ⟨h1, h2, h3⟩ := h
  have h3 : ¬ (inp.Code.utf8ByteSize ≥ 128 * 1024) := by omega
  unfold Solution
  rcases h1 with h1 | h1 <;> rcases h2 with h2 | h2 <;> simp [h1, h2, h3]

theorem judged_result_json (env : Env) (inp : In) (r : Response)
    (h : (judged env inp).result = some r) : ∃ out, r = Response.json out := by
  unfold judged at h
  simp only [Step.result_bind] at h
  simp only [Option.bind_eq_some] at h
  obtain ⟨score, _, u, _, out, _, h⟩ := h
  unfold encode at h
  split at h
  · simp at h
  · simp at h; exact ⟨out, h.symm⟩

/-! ## The pieces of a run -/

section Pieces

variable {α β : Type}

theorem Step.trace_bind_of_result (x : Step α) (f : α → Step β) (a : α)
    (h : x.result = some a) : (x >>= f).trace = x.trace ++ (f a).trace := by
  rw [Step.trace_bind, h]

theorem Step.result_bind_eq_some (x : Step α) (f : α → Step β) (b : β) :
    (x >>= f).result = some b ↔ ∃ a, x.result = some a ∧ (f a).result = some b := by
  rw [Step.result_bind]
  cases x.result <;> simp

end Pieces

theorem mem_awardTrophy_trace (e : Event) (db : DB) (u : Int) (t : String) :
    e ∈ (awardTrophy db u t).trace ↔ e = Event.awardTrophy u t := by
  simp [awardTrophy]

theorem mem_queryBool_trace (e : Event) (db : DB) (q : Query) :
    e ∈ (queryBool db q).trace ↔ e = Event.queryBool q := by
  simp [queryBool]

theorem queryBool_result (db : DB) (q : Query) (b : Bool)
    (h : (queryBool db q).result = some b) : db.eval q = some b := by
  unfold queryBool at h
  simp only at h
  split at h
  · cases h
  · exact h

theorem mem_birthday_trace (e : Event) (db : DB) (u : Int) (m d : Nat) :
    e ∈ (birthday db u m d).trace ↔
      (m = 10 ∧ d = 2) ∧ e = Event.awardTrophy u "happy-birthday-code-golf" := by
  unfold birthday
  split <;> simp_all [mem_awardTrophy_trace]

theorem mem_holeCalendar_trace (e : Event) (db : DB) (u : Int) (h : String) (m d : Nat)
    (he : e ∈ (holeCalendar db u h m d).trace) :
    ∃ t, e = Event.awardTrophy u t ∧ t ∈ ruleTrophies ∧ t ≠ "happy-birthday-code-golf" ∧
      t ≠ "caffeinated" ∧ t ≠ "tim-toady" := by
  unfold holeCalendar at he
  split_ifs at he <;> simp [mem_awardTrophy_trace] at he <;> subst he <;>
    exact ⟨_, rfl, by decide, by decide, by decide, by decide⟩

theorem mem_polyglot_trace (e : Event) (db : DB) (u : Int)
    (he : e ∈ (polyglot db u).trace) :
    e = Event.queryBool (Query.polyglot u) ∨ e = Event.awardTrophy u "polyglot" := by
  unfold polyglot at he
  simp only [Step.mem_trace_bind, mem_queryBool_trace] at he
  rcases he with he | ⟨b, -, he⟩
  · exact Or.inl he
  · split at he
    · exact Or.inr ((mem_awardTrophy_trace _ _ _ _).1 he)
    · simp at he

theorem mem_itsOver9000_trace (e : Event) (db : DB) (u : Int)
    (he : e ∈ (itsOver9000 db u).trace) :
    e = Event.queryBool (Query.charsPoints u) ∨ e = Event.queryBool (Query.bytesPoints u) ∨
      e = Event.awardTrophy u "its-over-9000" := by
  unfold itsOver9000 over9000 at he
  simp only [Step.mem_trace_bind, mem_queryBool_trace] at he
  rcases he with (he | ⟨b, -, he⟩) | ⟨c, -, he⟩
  · exact Or.inl he
  · split at he
    · simp at he
    · exact Or.inr (Or.inl ((mem_queryBool_trace _ _ _).1 he))
  · split at he
    · exact Or.inr (Or.inr ((mem_awardTrophy_trace _ _ _ _).1 he))
    · simp at he

/-- The calls of the language-pair statement: the pair query of the
submission's language and, when it yields true, the pair's grant. -/
theorem mem_langPairs_trace (e : Event) (db : DB) (u : Int) (inp : In)
    (he : e ∈ (langPairs db u inp).trace) :
    ((inp.Lang = "java" ∨ inp.Lang = "javascript") ∧
      (e = Event.queryBool (Query.caffeinated inp.Hole u) ∨
        (e = Event.awardTrophy u "caffeinated" ∧
          db.eval (Query.caffeinated inp.Hole u) = some true))) ∨
    ((inp.Lang = "perl" ∨ inp.Lang = "raku") ∧
      (e = Event.queryBool (Query.timToady inp.Hole u) ∨
        (e = Event.awardTrophy u "tim-toady" ∧
          db.eval (Query.timToady inp.Hole u) = some true))) := by
  unfold langPairs at he
  split_ifs at he with h1 h2
  · left
    refine ⟨h1, ?_⟩
    simp only [Step.mem_trace_bind, mem_queryBool_trace] at he
    rcases he with he | ⟨b, hb, he⟩
    · exact Or.inl he
    · split at he
      · rename_i hb'
        subst hb'
        exact Or.inr ⟨(mem_awardTrophy_trace _ _ _ _).1 he, queryBool_result _ _ _ hb⟩
      · simp at he
  · right
    refine ⟨h2, ?_⟩
    simp only [Step.mem_trace_bind, mem_queryBool_trace] at he
    rcases he with he | ⟨b, hb, he⟩
    · exact Or.inl he
    · split at he
      · rename_i hb'
        subst hb'
        exact Or.inr ⟨(mem_awardTrophy_trace _ _ _ _).1 he, queryBool_result _ _ _ hb⟩
      · simp at he
  · simp at he

/-- The calls of the trophy rules: queries, and grants to the submitting
golfer of trophies of the rule set. -/
theorem mem_trophies_trace (e : Event) (env : Env) (g : Golfer) (inp : In)
    (he : e ∈ (trophies env g inp).trace) :
    (∃ q, e = Event.queryBool q) ∨ ∃ t, e = Event.awardTrophy g.ID t ∧ t ∈ ruleTrophies := by
  unfold trophies at he
  simp only [Step.mem_trace_bind] at he
  rcases he with he | ⟨-, -, he | ⟨-, -, he | ⟨-, -, he | ⟨-, -, he⟩⟩⟩⟩
  · rw [mem_birthday_trace] at he
    exact Or.inr ⟨_, he.2, by decide⟩
  · obtain ⟨t, h1, h2, -⟩ := mem_holeCalendar_trace _ _ _ _ _ _ he
    exact Or.inr ⟨t, h1, h2⟩
  · rcases mem_polyglot_trace _ _ _ he with h | h
    · exact Or.inl ⟨_, h⟩
    · exact Or.inr ⟨_, h, by decide⟩
  · rcases mem_itsOver9000_trace _ _ _ he with h | h | h
    · exact Or.inl ⟨_, h⟩
    · exact Or.inl ⟨_, h⟩
    · exact Or.inr ⟨_, h, by decide⟩
  · rcases mem_langPairs_trace _ _ _ _ he with ⟨-, h | ⟨h, -⟩⟩ | ⟨-, h | ⟨h, -⟩⟩
    · exact Or.inl ⟨_, h⟩
    · exact Or.inr ⟨_, h, by decide⟩
    · exact Or.inl ⟨_, h⟩
    · exact Or.inr ⟨_, h, by decide⟩

theorem rankLoop_result (ordinal : Int → String) (g : Golfer) (inp : In)
    (updates recordUpdates : List RankUpdate) :
    (rankLoop ordinal g inp updates recordUpdates).result =
      some (recordUpdates ++ updates.filter isRecord) := by
  induction updates generalizing recordUpdates with
  | nil => simp [rankLoop]
  | cons rank rest ih =>
    unfold rankLoop
    by_cases h : rank.From.Strokes.Int64 = rank.To.Strokes.Int64
    · simp [h, ih, isRecord, changed]
    · by_cases h2 : rank.To.Joint.Bool = false ∧ rank.To.Rank.Int64 = 1
      · simp [h, h2, ih, isRecord, changed, Step.result_bind, logPrintf]
      · have h3 : isRecord rank = false := by
          simp only [isRecord, changed]
          simp only [not_and] at h2
          by_cases h4 : rank.To.Joint.Bool = false
          · simp [h2 h4]
          · simp [h4]
        simp [h, h2, ih, h3, Step.result_bind, logPrintf]

theorem rankLoop_trace (ordinal : Int → String) (g : Golfer) (inp : In)
    (updates recordUpdates : List RankUpdate) :
    (rankLoop ordinal g inp updates recordUpdates).trace =
      (updates.filter changed).map fun rank => Event.logPrintf (logLine ordinal g inp rank) := by
  induction updates generalizing recordUpdates with
  | nil => simp [rankLoop]
  | cons rank rest ih =>
    unfold rankLoop
    by_cases h : rank.From.Strokes.Int64 = rank.To.Strokes.Int64
    · simp [h, ih, changed]
    · by_cases h2 : rank.To.Joint.Bool = false ∧ rank.To.Rank.Int64 = 1
      · simp [h, h2, ih, changed, Step.trace_bind, logPrintf]
      · simp [h, h2, ih, changed, Step.trace_bind, logPrintf]

theorem announce_result (g : Golfer) (inp : In) (rs : List RankUpdate) :
    (announce g inp rs).result = some () := by
  unfold announce
  split <;> rfl

theorem announce_trace (g : Golfer) (inp : In) (rs : List RankUpdate) :
    (announce g inp rs).trace =
      if rs = [] then [] else [Event.logNewRecord g inp.Hole inp.Lang rs] := by
  unfold announce
  cases rs <;> simp [logNewRecord]

/-- The trace of the persisted branch: the `save_solution` call and, when it
returns its row, the log lines of the changed metrics, the announcement of the
records, and the calls of the trophy rules. -/
theorem persist_trace (env : Env) (g : Golfer) (inp : In) (out : Output) :
    (persist env g inp out).trace =
      Event.saveSolution inp.Code inp.Hole inp.Lang g.ID ::
        (match env.db.saveSolution inp.Code inp.Hole inp.Lang g.ID with
          | none => []
          | some row =>
            ([bytesUpdate row, charsUpdate row].filter changed).map
                (fun rank => Event.logPrintf (logLine env.ordinal g inp rank)) ++
              (announce g inp ([bytesUpdate row, charsUpdate row].filter isRecord)).trace ++
              (trophies env g inp).trace) := by
  unfold persist
  rw [Step.trace_bind]
  simp only [saveSolution]
  cases hrow : env.db.saveSolution inp.Code inp.Hole inp.Lang g.ID with
  | none => simp
  | some row =>
    simp only [List.singleton_append, List.cons.injEq, true_and]
    rw [Step.trace_bind_of_result _ _ _ (rankLoop_result _ _ _ _ _), rankLoop_trace,
      Step.trace_bind_of_result _ _ _ (announce_result _ _ _)]
    simp only [Step.trace_bind, List.nil_append, scanInto, List.append_assoc]
    cases (trophies env g inp).result <;> simp

theorem persist_result (env : Env) (g : Golfer) (inp : In) (out out' : Output)
    (h : (persist env g inp out).result = some out') :
    ∃ row, env.db.saveSolution inp.Code inp.Hole inp.Lang g.ID = some row ∧
      out' = scanInto out row ∧ (trophies env g inp).result = some () := by
  unfold persist at h
  simp only [Step.result_bind_eq_some, saveSolution, Step.result_pure] at h
  obtain ⟨row, hrow, _, _, _, _, _, ht, ho⟩ := h
  exact ⟨row, hrow, by cases ho; rfl, ht⟩

theorem mem_slowcoach_trace (e : Event) (env : Env) (score : Scorecard) :
    e ∈ (slowcoach env score).trace ↔
      score.Timeout = true ∧ ∃ g, env.golfer = some g ∧ e = Event.awardTrophy g.ID "slowcoach" := by
  unfold slowcoach
  cases env.golfer with
  | none => simp
  | some g =>
    by_cases h : score.Timeout = true <;> simp [h, mem_awardTrophy_trace]

theorem mem_tlDr_trace (e : Event) (env : Env) :
    e ∈ (tlDr env).trace ↔ ∃ g, env.golfer = some g ∧ e = Event.awardTrophy g.ID "tl-dr" := by
  unfold tlDr
  cases env.golfer <;> simp [mem_awardTrophy_trace]

theorem gate_eq_some (env : Env) (inp : In) (out : Output) (g : Golfer) :
    gate env inp out = some g ↔
      out.Pass = true ∧ env.golfer = some g ∧ experimental env inp = false ∧
        inp.Lang ≠ "assembly" := by
  unfold gate
  cases env.golfer with
  | none => simp
  | some g' =>
    by_cases h1 : out.Pass = true <;> by_cases h2 : experimental env inp = false <;>
      by_cases h3 : inp.Lang = "assembly" <;> simp_all

/-- The trace of the handler from the judge on. -/
theorem judged_trace (env : Env) (inp : In) :
    (judged env inp).trace =
      Event.play inp.Hole inp.Lang inp.Code ::
        ((slowcoach env (env.play inp.Hole inp.Lang inp.Code)).trace ++
          match (slowcoach env (env.play inp.Hole inp.Lang inp.Code)).result with
          | none => []
          | some _ =>
            (persisted env inp (buildOut env (env.play inp.Hole inp.Lang inp.Code))).trace) := by
  unfold judged
  rw [Step.trace_bind]
  simp only [play, List.singleton_append, List.cons.injEq, true_and]
  rw [Step.trace_bind]
  congr 1
  cases (slowcoach env (env.play inp.Hole inp.Lang inp.Code)).result with
  | none => rfl
  | some u =>
    simp only
    rw [Step.trace_bind]
    cases (persisted env inp (buildOut env (env.play inp.Hole inp.Lang inp.Code))).result
    · simp
    · simp only [encode]
      split <;> simp

theorem Solution_oversized (env : Env) (inp : In)
    (h1 : inp.Hole ∈ env.holeByID ∨ inp.Hole ∈ env.holeExperimentalByID)
    (h2 : inp.Lang ∈ env.langByID ∨ inp.Lang = "assembly")
    (h3 : inp.Code.utf8ByteSize ≥ 131072) :
    Solution env (some inp) = (tlDr env >>= fun _ => pure Response.requestEntityTooLarge) := by
  have h3 : inp.Code.utf8ByteSize ≥ 128 * 1024 := by omega
  unfold Solution
  rcases h1 with h1 | h1 <;> rcases h2 with h2 | h2 <;> simp [h1, h2, h3]

theorem Solution_unknown (env : Env) (inp : In)
    (h : (inp.Hole ∉ env.holeByID ∧ inp.Hole ∉ env.holeExperimentalByID) ∨
      (inp.Lang ∉ env.langByID ∧ inp.Lang ≠ "assembly")) :
    Solution env (some inp) = pure Response.notFound := by
  unfold Solution
  rcases h with ⟨a, b⟩ | ⟨a, b⟩
  · simp [a, b]
  · by_cases c : inp.Hole ∈ env.holeByID <;> by_cases d : inp.Hole ∈ env.holeExperimentalByID <;>
      simp [a, b, c, d]

theorem utf8ByteSize_replicate (n : Nat) :
    (String.mk (List.replicate n 'a')).utf8ByteSize = n := by
  induction n with
  | zero => rfl
  | succ n ih =>
    have h : (String.mk ('a' :: List.replicate n 'a')).utf8ByteSize =
        (String.mk (List.replicate n 'a')).utf8ByteSize + 1 := by
      simp [String.utf8ByteSize, String.utf8ByteSize.go]
      rfl
    rw [List.replicate_succ, h, ih]

theorem bigCode_size : bigCode.utf8ByteSize = 131072 :=
  utf8ByteSize_replicate 131072

/-- A trophy grant in the persisted branch comes from the trophy rules, after
`save_solution` returned its row. -/
theorem mem_persisted_trace_award (env : Env) (inp : In) (out : Output) (u : Int) (t : String) :
    Event.awardTrophy u t ∈ (persisted env inp out).trace ↔
      ∃ g row, gate env inp out = some g ∧
        env.db.saveSolution inp.Code inp.Hole inp.Lang g.ID = some row ∧
        Event.awardTrophy u t ∈ (trophies env g inp).trace := by
  unfold persisted
  cases hg : gate env inp out with
  | none => simp
  | some g =>
    simp only [persist_trace, Option.some.injEq, exists_and_left, exists_eq_left']
    cases hrow : env.db.saveSolution inp.Code inp.Hole inp.Lang g.ID with
    | none => simp
    | some row =>
      simp [announce_trace]

/-- A trophy grant in a judged run is the slowcoach grant or comes from the
persisted branch. -/
theorem mem_judged_trace_award (env : Env) (inp : In) (u : Int) (t : String) :
    Event.awardTrophy u t ∈ (judged env inp).trace ↔
      Event.awardTrophy u t ∈ (slowcoach env (env.play inp.Hole inp.Lang inp.Code)).trace ∨
      ((slowcoach env (env.play inp.Hole inp.Lang inp.Code)).result = some () ∧
        Event.awardTrophy u t ∈
          (persisted env inp (buildOut env (env.play inp.Hole inp.Lang inp.Code))).trace) := by
  rw [judged_trace]
  cases (slowcoach env (env.play inp.Hole inp.Lang inp.Code)).result <;> simp

theorem slowcoach_result (env : Env) (score : Scorecard)
    (h : ∀ u, env.db.execErr u "slowcoach" = false) : (slowcoach env score).result = some () := by
  unfold slowcoach
  cases env.golfer with
  | none => rfl
  | some g =>
    by_cases ht : score.Timeout = true <;> simp [ht, awardTrophy, h]

/-- Every call of the slowcoach statement is a slowcoach grant. -/
theorem slowcoach_trace_cases (env : Env) (score : Scorecard) :
    ∀ e ∈ (slowcoach env score).trace, ∃ u, e = Event.awardTrophy u "slowcoach" := by
  intro e he
  obtain ⟨_, g, _, h⟩ := (mem_slowcoach_trace e env score).1 he
  exact ⟨g.ID, h⟩

theorem gate_eq_none (env : Env) (inp : In) (out : Output) :
    gate env inp out = none ↔
      ¬ (out.Pass = true ∧ env.golfer ≠ none ∧ experimental env inp = false ∧
        inp.Lang ≠ "assembly") := by
  unfold gate
  cases env.golfer with
  | none => simp
  | some g' =>
    by_cases h1 : out.Pass = true <;> by_cases h2 : experimental env inp = false <;>
      by_cases h3 : inp.Lang = "assembly" <;> simp_all

/-- The trace of a validated request that does not enter the persisted
branch: the judge call and the slowcoach statement. -/
theorem Solution_trace_skipped (env : Env) (inp : In) (hv : validated env inp)
    (hg : gate env inp (buildOut env (env.play inp.Hole inp.Lang inp.Code)) = none) :
    (Solution env (some inp)).trace =
      Event.play inp.Hole inp.Lang inp.Code ::
        (slowcoach env (env.play inp.Hole inp.Lang inp.Code)).trace := by
  rw [Solution_of_validated env inp hv, judged_trace]
  cases (slowcoach env (env.play inp.Hole inp.Lang inp.Code)).result with
  | none => simp
  | some _ => simp [persisted, hg]

/-- The trace of a validated request that enters the persisted branch, the
slowcoach statement not having failed. -/
theorem Solution_trace_persisted (env : Env) (inp : In) (g : Golfer) (hv : validated env inp)
    (hs : (slowcoach env (env.play inp.Hole inp.Lang inp.Code)).result = some ())
    (hg : gate env inp (buildOut env (env.play inp.Hole inp.Lang inp.Code)) = some g) :
    (Solution env (some inp)).trace =
      Event.play inp.Hole inp.Lang inp.Code ::
        ((slowcoach env (env.play inp.Hole inp.Lang inp.Code)).trace ++
          (persist env g inp (buildOut env (env.play inp.Hole inp.Lang inp.Code))).trace) := by
  rw [Solution_of_validated env inp hv, judged_trace, hs]
  simp [persisted, hg]

/-- Every call of the trophy rules, with the condition under which it is
made. -/
theorem mem_trophies_trace_cases (e : Event) (env : Env) (g : Golfer) (inp : In)
    (he : e ∈ (trophies env g inp).trace) :
    (e = Event.awardTrophy g.ID "happy-birthday-code-golf" ∧ env.month = 10 ∧ env.day = 2) ∨
    (∃ t, e = Event.awardTrophy g.ID t ∧ t ∈ ruleTrophies ∧ t ≠ "happy-birthday-code-golf" ∧
      t ≠ "caffeinated" ∧ t ≠ "tim-toady") ∨
    (∃ q, e = Event.queryBool q) ∨
    (e = Event.awardTrophy g.ID "caffeinated" ∧ (inp.Lang = "java" ∨ inp.Lang = "javascript") ∧
      env.db.eval (Query.caffeinated inp.Hole g.ID) = some true) ∨
    (e = Event.awardTrophy g.ID "tim-toady" ∧ (inp.Lang = "perl" ∨ inp.Lang = "raku") ∧
      env.db.eval (Query.timToady inp.Hole g.ID) = some true) := by
  unfold trophies at he
  simp only [Step.mem_trace_bind] at he
  rcases he with he | ⟨_, _, he | ⟨_, _, he | ⟨_, _, he | ⟨_, _, he⟩⟩⟩⟩
  · rw [mem_birthday_trace] at he
    exact Or.inl ⟨he.2, he.1.1, he.1.2⟩
  · exact Or.inr (Or.inl (mem_holeCalendar_trace _ _ _ _ _ _ he))
  · rcases mem_polyglot_trace _ _ _ he with h | h
    · exact Or.inr (Or.inr (Or.inl ⟨_, h⟩))
    · exact Or.inr (Or.inl ⟨_, h, by decide, by decide, by decide, by decide⟩)
  · rcases mem_itsOver9000_trace _ _ _ he with h | h | h
    · exact Or.inr (Or.inr (Or.inl ⟨_, h⟩))
    · exact Or.inr (Or.inr (Or.inl ⟨_, h⟩))
    · exact Or.inr (Or.inl ⟨_, h, by decide, by decide, by decide, by decide⟩)
  · rcases mem_langPairs_trace _ _ _ _ he with ⟨hl, h | ⟨h, hq⟩⟩ | ⟨hl, h | ⟨h, hq⟩⟩
    · exact Or.inr (Or.inr (Or.inl ⟨_, h⟩))
    · exact Or.inr (Or.inr (Or.inr (Or.inl ⟨h, hl, hq⟩)))
    · exact Or.inr (Or.inr (Or.inl ⟨_, h⟩))
    · exact Or.inr (Or.inr (Or.inr (Or.inr ⟨h, hl, hq⟩)))

/-- A trophy grant anywhere in a run: `tl-dr`, `slowcoach`, or a grant of the
trophy rules in a validated request that entered the persisted branch. -/
theorem mem_Solution_trace_award (env : Env) (body : Option In) (u : Int) (t : String)
    (he : Event.awardTrophy u t ∈ (Solution env body).trace) :
    t = "tl-dr" ∨ t = "slowcoach" ∨
      ∃ inp g row, body = some inp ∧ validated env inp ∧
        gate env inp (buildOut env (env.play inp.Hole inp.Lang inp.Code)) = some g ∧
        env.db.saveSolution inp.Code inp.Hole inp.Lang g.ID = some row ∧
        Event.awardTrophy u t ∈ (trophies env g inp).trace := by
  cases body with
  | none => simp [Solution] at he
  | some inp =>
    by_cases hu : (inp.Hole ∉ env.holeByID ∧ inp.Hole ∉ env.holeExperimentalByID) ∨
        (inp.Lang ∉ env.langByID ∧ inp.Lang ≠ "assembly")
    · rw [Solution_unknown env inp hu] at he
      simp at he
    · simp only [not_or, not_and_or, not_not] at hu
      obtain ⟨h1, h2⟩ := hu
      by_cases hs : inp.Code.utf8ByteSize ≥ 131072
      · rw [Solution_oversized env inp h1 h2 hs, Step.mem_trace_bind] at he
        rcases he with he | ⟨_, _, he⟩
        · obtain ⟨g, _, hg⟩ := (mem_tlDr_trace _ env).1 he
          cases hg
          exact Or.inl rfl
        · simp at he
      · have hv : validated env inp := ⟨h1, h2, by omega⟩
        rw [Solution_of_validated env inp hv, mem_judged_trace_award, mem_slowcoach_trace,
          mem_persisted_trace_award] at he
        rcases he with ⟨_, g, _, he⟩ | ⟨_, g, row, hg, hrow, he⟩
        · cases he
          exact Or.inr (Or.inl rfl)
        · exact Or.inr (Or.inr ⟨inp, g, row, rfl, hv, hg, hrow, he⟩)

/-- A JSON response is given to validated requests only. -/
theorem Solution_result_json (env : Env) (inp : In) (out : Output)
    (h : (Solution env (some inp)).result = some (Response.json out)) : validated env inp := by
  by_cases hu : (inp.Hole ∉ env.holeByID ∧ inp.Hole ∉ env.holeExperimentalByID) ∨
      (inp.Lang ∉ env.langByID ∧ inp.Lang ≠ "assembly")
  · rw [Solution_unknown env inp hu] at h
    cases h
  · simp only [not_or, not_and_or, not_not] at hu
    obtain ⟨h1, h2⟩ := hu
    by_cases hs : inp.Code.utf8ByteSize ≥ 131072
    · rw [Solution_oversized env inp h1 h2 hs, Step.result_bind_eq_some] at h
      obtain ⟨_, _, h⟩ := h
      cases h
    · exact ⟨h1, h2, by omega⟩

/-- A judged run that answers went through all four statements. -/
theorem judged_result (env : Env) (inp : In) (r : Response)
    (h : (judged env inp).result = some r) :
    (slowcoach env (env.play inp.Hole inp.Lang inp.Code)).result = some () ∧
      ∃ out, (persisted env inp (buildOut env (env.play inp.Hole inp.Lang inp.Code))).result =
          some out ∧ r = Response.json out ∧ env.encodeErr = false := by
  unfold judged at h
  simp only [Step.result_bind_eq_some] at h
  obtain ⟨score, hscore, _, hs, out, hout, h⟩ := h
  simp only [play, Option.some.injEq] at hscore
  subst hscore
  refine ⟨hs, out, hout, ?_⟩
  unfold encode at h
  split at h
  · cases h
  · rename_i hc
    simp only [Step.result_pure, Option.some.injEq] at h
    exact ⟨h.symm, by simpa using hc⟩

/-- The body of a JSON response: `out` as built from the judge result, with
the store's row scanned into it when the persisted branch ran. -/
theorem Solution_out (env : Env) (inp : In) (out : Output)
    (h : (Solution env (some inp)).result = some (Response.json out)) :
    (∀ g, gate env inp (buildOut env (env.play inp.Hole inp.Lang inp.Code)) = some g →
      ∃ row, env.db.saveSolution inp.Code inp.Hole inp.Lang g.ID = some row ∧
        out = scanInto (buildOut env (env.play inp.Hole inp.Lang inp.Code)) row) ∧
    (gate env inp (buildOut env (env.play inp.Hole inp.Lang inp.Code)) = none →
      out = buildOut env (env.play inp.Hole inp.Lang inp.Code)) := by
  have hv := Solution_result_json env inp out h
  rw [Solution_of_validated env inp hv] at h
  obtain ⟨_, out', hp, ho, _⟩ := judged_result env inp _ h
  cases ho
  unfold persisted at hp
  constructor
  · intro g hg
    rw [hg] at hp
    obtain ⟨row, hrow, ho, _⟩ := persist_result env g inp _ _ hp
    exact ⟨row, hrow, ho⟩
  · intro hg
    rw [hg] at hp
    simp only [Step.result_pure, Option.some.injEq] at hp
    exact hp.symm

/-- The trace of a validated request whose persisted branch got its row. -/
theorem Solution_trace_row (env : Env) (inp : In) (g : Golfer) (row : SaveRow)
    (hv : validated env inp) (hslow : ∀ u, env.db.execErr u "slowcoach" = false)
    (hp : (env.play inp.Hole inp.Lang inp.Code).Pass = true) (hg : env.golfer = some g)
    (hexp : experimental env inp = false) (hlang : inp.Lang ≠ "assembly")
    (hrow : env.db.saveSolution inp.Code inp.Hole inp.Lang g.ID = some row) :
    (Solution env (some inp)).trace =
      Event.play inp.Hole inp.Lang inp.Code ::
        ((slowcoach env (env.play inp.Hole inp.Lang inp.Code)).trace ++
          Event.saveSolution inp.Code inp.Hole inp.Lang g.ID ::
            (([bytesUpdate row, charsUpdate row].filter changed).map
                (fun rank => Event.logPrintf (logLine env.ordinal g inp rank)) ++
              (announce g inp ([bytesUpdate row, charsUpdate row].filter isRecord)).trace ++
              (trophies env g inp).trace)) := by
  have hgate := (gate_eq_some env inp (buildOut env (env.play inp.Hole inp.Lang inp.Code)) g).2
    ⟨hp, hg, hexp, hlang⟩
  rw [Solution_trace_persisted env inp g hv (slowcoach_result env _ hslow) hgate, persist_trace,
    hrow]

theorem mem_trophies_trace_birthday (env : Env) (g : Golfer) (inp : In)
    (h : env.month = 10 ∧ env.day = 2) :
    Event.awardTrophy g.ID "happy-birthday-code-golf" ∈ (trophies env g inp).trace := by
  unfold trophies
  rw [Step.mem_trace_bind, mem_birthday_trace]
  exact Or.inl ⟨h, rfl⟩

theorem changed_eq_true (rank : RankUpdate) :
    changed rank = true ↔ rank.From.Strokes.Int64 ≠ rank.To.Strokes.Int64 := by
  simp [changed]

theorem isRecord_eq_true (rank : RankUpdate) :
    isRecord rank = true ↔
      rank.From.Strokes.Int64 ≠ rank.To.Strokes.Int64 ∧ rank.To.Joint.Bool = false ∧
        rank.To.Rank.Int64 = 1 := by
  simp [isRecord, changed, and_assoc]

theorem bytesUpdate_ne_charsUpdate (row : SaveRow) : bytesUpdate row ≠ charsUpdate row := by
  intro h
  have h' : "bytes" = "chars" := congrArg RankUpdate.Scoring h
  exact absurd h' (by decide)

/-- The trophy rules neither log nor announce. -/
theorem trophies_trace_kinds (env : Env) (g : Golfer) (inp : In) :
    ∀ e ∈ (trophies env g inp).trace, (∃ q, e = Event.queryBool q) ∨ ∃ u t, e = Event.awardTrophy u t := by
  intro e he
  rcases mem_trophies_trace e env g inp he with h | ⟨t, h, _⟩
  · exact Or.inl h
  · exact Or.inr ⟨_, _, h⟩

/-- Every call of the announcement statement is the dispatch of its batch. -/
theorem mem_announce_trace (e : Event) (g : Golfer) (inp : In) (rs : List RankUpdate)
    (he : e ∈ (announce g inp rs).trace) :
    e = Event.logNewRecord g inp.Hole inp.Lang rs ∧ rs ≠ [] := by
  rw [announce_trace] at he
  split at he
  · simp at he
  · rename_i h
    exact ⟨by simpa using he, h⟩

/-- When the trophy rules run to their end, the calls of the language-pair
statement are among their calls, and that statement did not panic. -/
theorem trophies_result (env : Env) (g : Golfer) (inp : In)
    (h : (trophies env g inp).result = some ()) :
    (langPairs env.db g.ID inp).result = some () ∧
      ∀ e ∈ (langPairs env.db g.ID inp).trace, e ∈ (trophies env g inp).trace := by
  unfold trophies at h ⊢
  simp only [Step.result_bind_eq_some] at h
  obtain ⟨_, hb, _, hh, _, hp, _, hi, hl⟩ := h
  refine ⟨hl, ?_⟩
  intro e he
  rw [Step.trace_bind_of_result _ _ _ hb, Step.trace_bind_of_result _ _ _ hh,
    Step.trace_bind_of_result _ _ _ hp, Step.trace_bind_of_result _ _ _ hi]
  simp [he]

theorem langPairs_caffeinated (db : DB) (u : Int) (inp : In)
    (hr : (langPairs db u inp).result = some ())
    (hl : inp.Lang = "java" ∨ inp.Lang = "javascript")
    (hc : (pairRows db inp.Hole "java" "javascript" u).length = 4) :
    Event.awardTrophy u "caffeinated" ∈ (langPairs db u inp).trace := by
  unfold langPairs at hr ⊢
  rw [if_pos hl] at hr ⊢
  rw [Step.result_bind_eq_some] at hr
  obtain ⟨b, hb, _⟩ := hr
  have he := queryBool_result _ _ _ hb
  simp only [DB.eval, hc, decide_True, Option.some.injEq] at he
  subst he
  rw [Step.trace_bind_of_result _ _ _ hb]
  simp [awardTrophy]

theorem langPairs_timToady (db : DB) (u : Int) (inp : In)
    (hr : (langPairs db u inp).result = some ())
    (hl : inp.Lang = "perl" ∨ inp.Lang = "raku")
    (hc : (pairRows db inp.Hole "perl" "raku" u).length = 4) :
    Event.awardTrophy u "tim-toady" ∈ (langPairs db u inp).trace := by
  have hn : ¬ (inp.Lang = "java" ∨ inp.Lang = "javascript") := by
    rcases hl with hl | hl <;> rw [hl] <;> decide
  unfold langPairs at hr ⊢
  rw [if_neg hn, if_pos hl] at hr ⊢
  rw [Step.result_bind_eq_some] at hr
  obtain ⟨b, hb, _⟩ := hr
  have he := queryBool_result _ _ _ hb
  simp only [DB.eval, hc, decide_True, Option.some.injEq] at he
  subst he
  rw [Step.trace_bind_of_result _ _ _ hb]
  simp [awardTrophy]

/-- A validated request that entered the persisted branch and was answered
ran the trophy rules to their end, and their calls are in its trace. -/
theorem Solution_result_trophies (env : Env) (inp : In) (g : Golfer) (r : Response)
    (hv : validated env inp) (hr : (Solution env (some inp)).result = some r)
    (hp : (env.play inp.Hole inp.Lang inp.Code).Pass = true) (hg : env.golfer = some g)
    (hexp : experimental env inp = false) (hlang : inp.Lang ≠ "assembly") :
    (trophies env g inp).result = some () ∧
      ∀ e ∈ (trophies env g inp).trace, e ∈ (Solution env (some inp)).trace := by
  have hgate := (gate_eq_some env inp (buildOut env (env.play inp.Hole inp.Lang inp.Code)) g).2
    ⟨hp, hg, hexp, hlang⟩
  have hr' := hr
  rw [Solution_of_validated env inp hv] at hr'
  obtain ⟨hs, out, hout, _, _⟩ := judged_result env inp r hr'
  unfold persisted at hout
  rw [hgate] at hout
  obtain ⟨row, hrow, _, ht⟩ := persist_result env g inp _ _ hout
  refine ⟨ht, ?_⟩
  intro e he
  rw [Solution_trace_persisted env inp g hv hs hgate, persist_trace, hrow]
  simp [he]

/-- The run of an oversized request with known hole and language. -/
theorem Solution_oversized_run (env : Env) (inp : In)
    (h1 : inp.Hole ∈ env.holeByID ∨ inp.Hole ∈ env.holeExperimentalByID)
    (h2 : inp.Lang ∈ env.langByID ∨ inp.Lang = "assembly")
    (h3 : inp.Code.utf8ByteSize ≥ 131072) :
    (Solution env (some inp)).trace =
        (match env.golfer with
          | some g => [Event.awardTrophy g.ID "tl-dr"]
          | none => []) ∧
      (Solution env (some inp)).result =
        (match env.golfer with
          | some g =>
            if env.db.execErr g.ID "tl-dr" then none else some Response.requestEntityTooLarge
          | none => some Response.requestEntityTooLarge) := by
  rw [Solution_oversized env inp h1 h2 h3, Step.trace_bind, Step.result_bind]
  unfold tlDr
  cases env.golfer with
  | none => simp
  | some g =>
    simp only [awardTrophy]
    by_cases h : env.db.execErr g.ID "tl-dr" = true <;> simp [h]

/-! ## Validation -/

/-- Claim C3: the handler answers 404 exactly when the hole id is in neither
catalogue or the language id is neither catalogued nor `assembly`; such a run
makes no call at all (no judge, no persistence, no trophy grant). -/
theorem C3_notFound_iff (env : Env) (inp : In) :
    ((Solution env (some inp)).result = some Response.notFound ↔
      (inp.Hole ∉ env.holeByID ∧ inp.Hole ∉ env.holeExperimentalByID) ∨
      (inp.Lang ∉ env.langByID ∧ inp.Lang ≠ "assembly")) ∧
    ((Solution env (some inp)).result = some Response.notFound →
      (Solution env (some inp)).trace = []) := by
  by_cases hu : (inp.Hole ∉ env.holeByID ∧ inp.Hole ∉ env.holeExperimentalByID) ∨
      (inp.Lang ∉ env.langByID ∧ inp.Lang ≠ "assembly")
  · rw [Solution_unknown env inp hu]
    simp [hu]
  · have hne : (Solution env (some inp)).result ≠ some Response.notFound := by
      have hk := hu
      simp only [not_or, not_and_or, not_not] at hk
      obtain ⟨h1, h2⟩ := hk
      by_cases hs : inp.Code.utf8ByteSize ≥ 131072
      · rw [Solution_oversized env inp h1 h2 hs, Step.result_bind]
        cases (tlDr env).result <;> simp
      · rw [Solution_of_validated env inp ⟨h1, h2, by omega⟩]
        intro h
        obtain ⟨out, ho⟩ := judged_result_json env inp _ h
        cases ho
    exact ⟨⟨fun h => absurd h hne, fun h => absurd h hu⟩, fun h => absurd h hne⟩

/-- Witness for claim C3: an unknown language on a known hole is answered 404
without any call, and a known hole with a known language is not answered 404. -/
theorem C3_notFound_witness :
    (Solution sampleEnv (some { Code := "x", Hole := "π", Lang := "cobol" })).result =
        some Response.notFound ∧
      (Solution sampleEnv (some { Code := "x", Hole := "π", Lang := "cobol" })).trace = [] ∧
      (Solution sampleEnv (some { Code := "x", Hole := "π", Lang := "assembly" })).result ≠
        some Response.notFound :=
  ⟨(C3_notFound_iff sampleEnv _).1.2 (by decide),
   (C3_notFound_iff sampleEnv _).2 ((C3_notFound_iff sampleEnv _).1.2 (by decide)),
   fun h => absurd ((C3_notFound_iff sampleEnv _).1.1 h) (by decide)⟩

/-- Claim C2, as the handler has it: for a request with a known hole and a
known or bypass language whose code is 131072 bytes or longer, the only call
is the grant of `tl-dr` to the authenticated golfer (no call when nobody is
signed in), and the answer is 413 unless that insert fails. -/
theorem C2_oversized (env : Env) (inp : In)
    (hHole : inp.Hole ∈ env.holeByID ∨ inp.Hole ∈ env.holeExperimentalByID)
    (hLang : inp.Lang ∈ env.langByID ∨ inp.Lang = "assembly")
    (hSize : inp.Code.utf8ByteSize ≥ 131072) :
    (Solution env (some inp)).trace =
        (match env.golfer with
          | some g => [Event.awardTrophy g.ID "tl-dr"]
          | none => []) ∧
      (Solution env (some inp)).result =
        (match env.golfer with
          | some g =>
            if env.db.execErr g.ID "tl-dr" then none else some Response.requestEntityTooLarge
          | none => some Response.requestEntityTooLarge) := by
  exact Solution_oversized_run env inp hHole hLang hSize

/-- Witness for claim C2: an oversized submission to a known hole in a known
language by golfer 1. -/
theorem C2_oversized_witness :
    ("π" ∈ sampleEnv.holeByID ∨ "π" ∈ sampleEnv.holeExperimentalByID) ∧
      ("perl" ∈ sampleEnv.langByID ∨ "perl" = "assembly") ∧
      bigCode.utf8ByteSize ≥ 131072 ∧
      (Solution sampleEnv (some { Code := bigCode, Hole := "π", Lang := "perl" })).trace =
        [Event.awardTrophy 1 "tl-dr"] ∧
      (Solution sampleEnv (some { Code := bigCode, Hole := "π", Lang := "perl" })).result =
        some Response.requestEntityTooLarge :=
  ⟨by decide, by decide, bigCode_size.ge,
   C2_oversized sampleEnv { Code := bigCode, Hole := "π", Lang := "perl" }
     (by decide) (by decide) bigCode_size.ge⟩

/-- Claim C2 fails as stated: an oversized submission to an unknown hole is
answered 404, not 413, and the signed-in golfer gets no `tl-dr` grant. -/
theorem C2_counterexample :
    bigCode.utf8ByteSize ≥ 131072 ∧
      sampleEnv.golfer = some { ID := 1, Name := "ada" } ∧
      (Solution sampleEnv (some { Code := bigCode, Hole := "golf", Lang := "perl" })).result =
        some Response.notFound ∧
      Event.awardTrophy 1 "tl-dr" ∉
        (Solution sampleEnv (some { Code := bigCode, Hole := "golf", Lang := "perl" })).trace := by
  have h := Solution_unknown sampleEnv { Code := bigCode, Hole := "golf", Lang := "perl" }
    (Or.inl (by decide))
  refine ⟨bigCode_size.ge, rfl, ?_, ?_⟩
  · rw [h]; rfl
  · rw [h]; simp

/-- Claim C4, as the handler has it: a request that is oversized or names an
unknown hole or an unknown language never reaches the judge, `save_solution`,
a query, the logger or Discord; its only possible call is the grant of `tl-dr`
to the signed-in golfer, and that call is made exactly when hole and language
are known, the code is oversized and a golfer is signed in. -/
theorem C4_rejected_calls (env : Env) (inp : In)
    (h : inp.Code.utf8ByteSize ≥ 131072 ∨
      (inp.Hole ∉ env.holeByID ∧ inp.Hole ∉ env.holeExperimentalByID) ∨
      (inp.Lang ∉ env.langByID ∧ inp.Lang ≠ "assembly")) :
    (∀ e ∈ (Solution env (some inp)).trace,
      (∃ g, env.golfer = some g ∧ e = Event.awardTrophy g.ID "tl-dr") ∧
        (inp.Hole ∈ env.holeByID ∨ inp.Hole ∈ env.holeExperimentalByID) ∧
        (inp.Lang ∈ env.langByID ∨ inp.Lang = "assembly") ∧
        inp.Code.utf8ByteSize ≥ 131072) ∧
    (∀ g, env.golfer = some g →
      (inp.Hole ∈ env.holeByID ∨ inp.Hole ∈ env.holeExperimentalByID) →
      (inp.Lang ∈ env.langByID ∨ inp.Lang = "assembly") →
      (Solution env (some inp)).trace = [Event.awardTrophy g.ID "tl-dr"]) := by
  by_cases hu : (inp.Hole ∉ env.holeByID ∧ inp.Hole ∉ env.holeExperimentalByID) ∨
      (inp.Lang ∉ env.langByID ∧ inp.Lang ≠ "assembly")
  · constructor
    · intro e he
      rw [Solution_unknown env inp hu] at he
      simp at he
    · intro g _ h1 h2
      rcases hu with ⟨a, b⟩ | ⟨a, b⟩
      · rcases h1 with h1 | h1 <;> contradiction
      · rcases h2 with h2 | h2 <;> contradiction
  · have hs : inp.Code.utf8ByteSize ≥ 131072 := by
      rcases h with h | h | h
      · exact h
      · exact absurd (Or.inl h) hu
      · exact absurd (Or.inr h) hu
    simp only [not_or, not_and_or, not_not] at hu
    obtain ⟨h1, h2⟩ := hu
    have hrun := (Solution_oversized_run env inp h1 h2 hs).1
    constructor
    · intro e he
      rw [Solution_oversized env inp h1 h2 hs, Step.mem_trace_bind] at he
      rcases he with he | ⟨_, _, he⟩
      · exact ⟨(mem_tlDr_trace e env).1 he, h1, h2, hs⟩
      · simp at he
    · intro g hg _ _
      rw [hrun, hg]

/-- Witness for claim C4: an oversized submission to an unknown hole makes no
call. -/
theorem C4_rejected_calls_witness :
    bigCode.utf8ByteSize ≥ 131072 ∧
      ∀ e ∈ (Solution sampleEnv (some { Code := bigCode, Hole := "golf", Lang := "perl" })).trace,
        (∃ g, sampleEnv.golfer = some g ∧ e = Event.awardTrophy g.ID "tl-dr") ∧
          ("golf" ∈ sampleEnv.holeByID ∨ "golf" ∈ sampleEnv.holeExperimentalByID) ∧
          ("perl" ∈ sampleEnv.langByID ∨ "perl" = "assembly") ∧
          bigCode.utf8ByteSize ≥ 131072 :=
  ⟨bigCode_size.ge,
   (C4_rejected_calls sampleEnv { Code := bigCode, Hole := "golf", Lang := "perl" }
     (Or.inl bigCode_size.ge)).1⟩

/-- Claim C4 fails as stated: an oversized submission by a signed-in golfer
reaches the store through the `tl-dr` grant. -/
theorem C4_counterexample :
    bigCode.utf8ByteSize ≥ 131072 ∧
      (Solution sampleEnv (some { Code := bigCode, Hole := "π", Lang := "perl" })).trace =
        [Event.awardTrophy 1 "tl-dr"] := by
  refine ⟨bigCode_size.ge, ?_⟩
  rw [Solution_oversized sampleEnv { Code := bigCode, Hole := "π", Lang := "perl" }
    (by decide) (by decide) bigCode_size.ge]
  rfl

/-! ## The timeout trophy -/

/-- Claim C9: in a request that passed validation, `slowcoach` is granted to
a golfer exactly when the judge reports a timeout and that golfer is the one
signed in, whatever the pass flag, the hole's catalogue and the language. -/
theorem C9_slowcoach_iff (env : Env) (inp : In) (hv : validated env inp) (u : Int) :
    Event.awardTrophy u "slowcoach" ∈ (Solution env (some inp)).trace ↔
      (env.play inp.Hole inp.Lang inp.Code).Timeout = true ∧
        ∃ g, env.golfer = some g ∧ g.ID = u := by
  rw [Solution_of_validated env inp hv, mem_judged_trace_award, mem_slowcoach_trace,
    mem_persisted_trace_award]
  constructor
  · rintro (⟨ht, g, hg, he⟩ | ⟨_, g, row, _, _, he⟩)
    · refine ⟨ht, g, hg, ?_⟩
      cases he; rfl
    · rcases mem_trophies_trace _ _ _ _ he with ⟨q, hq⟩ | ⟨t, ht, hmem⟩
      · cases hq
      · cases ht
        exact absurd hmem (by decide)
  · rintro ⟨ht, g, hg, rfl⟩
    exact Or.inl ⟨ht, g, hg, rfl⟩

/-- Witness for claim C9: a failed, timed-out submission by golfer 1. -/
theorem C9_slowcoach_witness :
    validated timeoutEnv { Code := "x", Hole := "lab-hole", Lang := "assembly" } ∧
      (timeoutEnv.play "lab-hole" "assembly" "x").Pass = false ∧
      Event.awardTrophy 1 "slowcoach" ∈
        (Solution timeoutEnv (some { Code := "x", Hole := "lab-hole", Lang := "assembly" })).trace :=
  ⟨by decide, rfl,
   (C9_slowcoach_iff timeoutEnv { Code := "x", Hole := "lab-hole", Lang := "assembly" }
      (by decide) 1).2 ⟨rfl, _, rfl, rfl⟩⟩

/-! ## The persisted branch -/

/-- Claim C1, as the handler has it: in a validated request `save_solution`
is called only when the judge reported a pass, a golfer is signed in, the hole
was not taken from the experimental catalogue and the language is not
`assembly`; it is called whenever the four hold and the slowcoach insert of
the timeout statement, if any, does not fail.  When it returns its row, the
rank loop, the announcement and the trophy rules run after it.  When one of
the four fails, the run consists of the judge call and the slowcoach
statement: no `save_solution`, no log line, no announcement, no query and no
grant of a trophy of the rule set. -/
theorem C1_gate (env : Env) (inp : In) (hv : validated env inp) :
    ((∃ c h l u, Event.saveSolution c h l u ∈ (Solution env (some inp)).trace) →
      ((env.play inp.Hole inp.Lang inp.Code).Pass = true ∧ env.golfer ≠ none ∧
        experimental env inp = false ∧ inp.Lang ≠ "assembly")) ∧
    ((∀ u, env.db.execErr u "slowcoach" = false) →
      ((env.play inp.Hole inp.Lang inp.Code).Pass = true ∧ env.golfer ≠ none ∧
        experimental env inp = false ∧ inp.Lang ≠ "assembly") →
      ∃ g, env.golfer = some g ∧
        Event.saveSolution inp.Code inp.Hole inp.Lang g.ID ∈ (Solution env (some inp)).trace) ∧
    (∀ g row, (∀ u, env.db.execErr u "slowcoach" = false) →
      (env.play inp.Hole inp.Lang inp.Code).Pass = true → env.golfer = some g →
      experimental env inp = false → inp.Lang ≠ "assembly" →
      env.db.saveSolution inp.Code inp.Hole inp.Lang g.ID = some row →
      (Solution env (some inp)).trace =
        Event.play inp.Hole inp.Lang inp.Code ::
          ((slowcoach env (env.play inp.Hole inp.Lang inp.Code)).trace ++
            Event.saveSolution inp.Code inp.Hole inp.Lang g.ID ::
              (([bytesUpdate row, charsUpdate row].filter changed).map
                  (fun rank => Event.logPrintf (logLine env.ordinal g inp rank)) ++
                (announce g inp ([bytesUpdate row, charsUpdate row].filter isRecord)).trace ++
                (trophies env g inp).trace))) ∧
    (¬ ((env.play inp.Hole inp.Lang inp.Code).Pass = true ∧ env.golfer ≠ none ∧
        experimental env inp = false ∧ inp.Lang ≠ "assembly") →
      (Solution env (some inp)).trace =
          Event.play inp.Hole inp.Lang inp.Code ::
            (slowcoach env (env.play inp.Hole inp.Lang inp.Code)).trace ∧
        (∀ c h l u, Event.saveSolution c h l u ∉ (Solution env (some inp)).trace) ∧
        (∀ line, Event.logPrintf line ∉ (Solution env (some inp)).trace) ∧
        (∀ g h l rs, Event.logNewRecord g h l rs ∉ (Solution env (some inp)).trace) ∧
        (∀ q, Event.queryBool q ∉ (Solution env (some inp)).trace) ∧
        (∀ u t, t ∈ ruleTrophies → Event.awardTrophy u t ∉ (Solution env (some inp)).trace)) := by
  have hskip : ¬ ((env.play inp.Hole inp.Lang inp.Code).Pass = true ∧ env.golfer ≠ none ∧
        experimental env inp = false ∧ inp.Lang ≠ "assembly") →
      (Solution env (some inp)).trace =
          Event.play inp.Hole inp.Lang inp.Code ::
            (slowcoach env (env.play inp.Hole inp.Lang inp.Code)).trace := by
    intro hn
    exact Solution_trace_skipped env inp hv ((gate_eq_none env inp _).2 hn)
  have hcases := slowcoach_trace_cases env (env.play inp.Hole inp.Lang inp.Code)
  refine ⟨?_, ?_, ?_, ?_⟩
  · rintro ⟨c, h, l, u, he⟩
    by_contra hn
    rw [hskip hn] at he
    rcases List.mem_cons.1 he with he | he
    · cases he
    · obtain ⟨_, h'⟩ := hcases _ he
      cases h'
  · rintro hslow ⟨hp, hgolf, hexp, hlang⟩
    have hs := slowcoach_result env (env.play inp.Hole inp.Lang inp.Code) hslow
    obtain ⟨g, hg⟩ := Option.ne_none_iff_exists'.1 hgolf
    have hgate := (gate_eq_some env inp (buildOut env (env.play inp.Hole inp.Lang inp.Code)) g).2
      ⟨hp, hg, hexp, hlang⟩
    refine ⟨g, hg, ?_⟩
    rw [Solution_trace_persisted env inp g hv hs hgate, persist_trace]
    simp
  · intro g row hslow hp hg hexp hlang hrow
    exact Solution_trace_row env inp g row hv hslow hp hg hexp hlang hrow
  · intro hn
    rw [hskip hn]
    refine ⟨rfl, ?_, ?_, ?_, ?_, ?_⟩
    · intro c h l u he
      rcases List.mem_cons.1 he with he | he
      · cases he
      · obtain ⟨_, h'⟩ := hcases _ he
        cases h'
    · intro line he
      rcases List.mem_cons.1 he with he | he
      · cases he
      · obtain ⟨_, h'⟩ := hcases _ he
        cases h'
    · intro g h l rs he
      rcases List.mem_cons.1 he with he | he
      · cases he
      · obtain ⟨_, h'⟩ := hcases _ he
        cases h'
    · intro q he
      rcases List.mem_cons.1 he with he | he
      · cases he
      · obtain ⟨_, h'⟩ := hcases _ he
        cases h'
    · intro u t ht he
      rcases List.mem_cons.1 he with he | he
      · cases he
      · obtain ⟨_, h'⟩ := hcases _ he
        cases h'
        exact absurd ht (by decide)

/-- Witness for claim C1: a passing submission by golfer 1 to a ranked hole
in a catalogued language reaches `save_solution`. -/
theorem C1_gate_witness :
    validated sampleEnv { Code := "x", Hole := "fizz-buzz", Lang := "python" } ∧
      (∀ u, sampleEnv.db.execErr u "slowcoach" = false) ∧
      ∃ g, sampleEnv.golfer = some g ∧
        Event.saveSolution "x" "fizz-buzz" "python" g.ID ∈
          (Solution sampleEnv
            (some { Code := "x", Hole := "fizz-buzz", Lang := "python" })).trace :=
  ⟨by decide, fun _ => rfl,
   (C1_gate sampleEnv { Code := "x", Hole := "fizz-buzz", Lang := "python" } (by decide)).2.1
      (fun _ => rfl) ⟨rfl, by decide, by decide, by decide⟩⟩

/-- Claim C1 fails as stated: a validated, passing python submission to a
ranked hole by signed-in golfer 1 satisfies all four conditions, but the judge
also reports a timeout and the insert of `slowcoach` fails; the handler panics
there and `save_solution` is never called. -/
theorem C1_counterexample :
    validated slowFailEnv { Code := "x", Hole := "fizz-buzz", Lang := "python" } ∧
      (slowFailEnv.play "fizz-buzz" "python" "x").Pass = true ∧
      slowFailEnv.golfer = some { ID := 1, Name := "ada" } ∧
      experimental slowFailEnv { Code := "x", Hole := "fizz-buzz", Lang := "python" } = false ∧
      (Solution slowFailEnv (some { Code := "x", Hole := "fizz-buzz", Lang := "python" })).trace =
        [Event.play "fizz-buzz" "python" "x", Event.awardTrophy 1 "slowcoach"] ∧
      (Solution slowFailEnv (some { Code := "x", Hole := "fizz-buzz", Lang := "python" })).result =
        none := by
  decide

/-! ## The trophy list of the response -/

/-- Claim C10: in a JSON response the field `Trophies` is the `earned` column
that `save_solution` returned when the persisted branch ran, and empty when it
was skipped; no grant made through `awardTrophy` is added to it.  So two runs
that agree on the hole catalogues, the signed-in golfer, the pass flag and
`save_solution` answer the same trophy list, whatever the date, the tables the
queries read, the insert errors and the timeout flag. -/
theorem C10_trophies (env : Env) (inp : In) (out : Output)
    (h : (Solution env (some inp)).result = some (Response.json out)) :
    (∀ g, (env.play inp.Hole inp.Lang inp.Code).Pass = true → env.golfer = some g →
      experimental env inp = false → inp.Lang ≠ "assembly" →
      ∃ row, env.db.saveSolution inp.Code inp.Hole inp.Lang g.ID = some row ∧
        out.Trophies = row.earned) ∧
    (¬ ((env.play inp.Hole inp.Lang inp.Code).Pass = true ∧ env.golfer ≠ none ∧
        experimental env inp = false ∧ inp.Lang ≠ "assembly") → out.Trophies = []) ∧
    (∀ env' out', env'.holeByID = env.holeByID →
      env'.holeExperimentalByID = env.holeExperimentalByID →
      env'.golfer = env.golfer →
      (env'.play inp.Hole inp.Lang inp.Code).Pass = (env.play inp.Hole inp.Lang inp.Code).Pass →
      env'.db.saveSolution = env.db.saveSolution →
      (Solution env' (some inp)).result = some (Response.json out') →
      out'.Trophies = out.Trophies) := by
  have key : ∀ (env : Env) (out : Output),
      (Solution env (some inp)).result = some (Response.json out) →
      (∀ g, (env.play inp.Hole inp.Lang inp.Code).Pass = true → env.golfer = some g →
        experimental env inp = false → inp.Lang ≠ "assembly" →
        ∃ row, env.db.saveSolution inp.Code inp.Hole inp.Lang g.ID = some row ∧
          out.Trophies = row.earned) ∧
      (¬ ((env.play inp.Hole inp.Lang inp.Code).Pass = true ∧ env.golfer ≠ none ∧
          experimental env inp = false ∧ inp.Lang ≠ "assembly") → out.Trophies = []) := by
    intro env out h
    obtain ⟨h1, h2⟩ := Solution_out env inp out h
    constructor
    · intro g hp hg hexp hlang
      obtain ⟨row, hrow, ho⟩ := h1 g ((gate_eq_some env inp _ g).2 ⟨hp, hg, hexp, hlang⟩)
      exact ⟨row, hrow, by rw [ho]; rfl⟩
    · intro hn
      rw [h2 ((gate_eq_none env inp _).2 hn)]
      rfl
  obtain ⟨k1, k2⟩ := key env out h
  refine ⟨k1, k2, ?_⟩
  intro env' out' e1 e2 e3 e4 e5 h'
  obtain ⟨k1', k2'⟩ := key env' out' h'
  have hexp : experimental env' inp = experimental env inp := by
    unfold experimental
    rw [e1, e2]
  by_cases hc : (env.play inp.Hole inp.Lang inp.Code).Pass = true ∧ env.golfer ≠ none ∧
      experimental env inp = false ∧ inp.Lang ≠ "assembly"
  · obtain ⟨hp, hgolf, hx, hl⟩ := hc
    obtain ⟨g, hg⟩ := Option.ne_none_iff_exists'.1 hgolf
    obtain ⟨row, hrow, ht⟩ := k1 g hp hg hx hl
    obtain ⟨row', hrow', ht'⟩ := k1' g (e4.trans hp) (e3.trans hg) (hexp.trans hx) hl
    rw [e5, hrow] at hrow'
    cases hrow'
    rw [ht, ht']
  · have hc' : ¬ ((env'.play inp.Hole inp.Lang inp.Code).Pass = true ∧ env'.golfer ≠ none ∧
        experimental env' inp = false ∧ inp.Lang ≠ "assembly") := by
      rw [e4, e3, hexp]
      exact hc
    rw [k2 hc, k2' hc']

/-- Witness for claim C10: on October 2 a passing, timed-out submission by
golfer 1 is answered with the store's trophy list; the grants of `slowcoach`
and of the anniversary trophy, both made in that run, are not in it. -/
theorem C10_trophies_witness :
    ∃ out,
      (Solution busyEnv (some { Code := "x", Hole := "fizz-buzz", Lang := "python" })).result =
          some (Response.json out) ∧
        out.Trophies = ["hello-world"] ∧
        Event.awardTrophy 1 "slowcoach" ∈
          (Solution busyEnv (some { Code := "x", Hole := "fizz-buzz", Lang := "python" })).trace ∧
        Event.awardTrophy 1 "happy-birthday-code-golf" ∈
          (Solution busyEnv (some { Code := "x", Hole := "fizz-buzz", Lang := "python" })).trace := by
  have h : (Solution busyEnv (some { Code := "x", Hole := "fizz-buzz", Lang := "python" })).result =
      some (Response.json (scanInto (buildOut busyEnv (busyEnv.play "fizz-buzz" "python" "x"))
        sampleRow)) := by decide
  obtain ⟨row, hrow, ht⟩ :=
    (C10_trophies busyEnv { Code := "x", Hole := "fizz-buzz", Lang := "python" } _ h).1
      { ID := 1, Name := "ada" } rfl rfl (by decide) (by decide)
  cases hrow
  exact ⟨_, h, ht, by decide, by decide⟩

/-! ## The anniversary trophy -/

/-- Claim C7, as the handler has it: on October 2 (UTC) a passing submission
by a signed-in golfer that enters the persisted branch (hole not taken from
the experimental catalogue, language not `assembly`, `save_solution` returning
its row, the slowcoach insert not failing) is granted
`happy-birthday-code-golf`; on any other date no request is. -/
theorem C7_birthday (env : Env) :
    (∀ inp g row, validated env inp → (∀ u, env.db.execErr u "slowcoach" = false) →
      (env.play inp.Hole inp.Lang inp.Code).Pass = true → env.golfer = some g →
      experimental env inp = false → inp.Lang ≠ "assembly" →
      env.db.saveSolution inp.Code inp.Hole inp.Lang g.ID = some row →
      env.month = time.October → env.day = 2 →
      Event.awardTrophy g.ID "happy-birthday-code-golf" ∈ (Solution env (some inp)).trace) ∧
    (∀ body u, ¬ (env.month = time.October ∧ env.day = 2) →
      Event.awardTrophy u "happy-birthday-code-golf" ∉ (Solution env body).trace) := by
  constructor
  · intro inp g row hv hslow hp hg hexp hlang hrow hm hd
    rw [Solution_trace_row env inp g row hv hslow hp hg hexp hlang hrow]
    have := mem_trophies_trace_birthday env g inp ⟨hm, hd⟩
    simp [this]
  · intro body u hdate he
    rcases mem_Solution_trace_award env body u _ he with h | h | ⟨inp, g, row, _, _, _, _, h⟩
    · exact absurd h (by decide)
    · exact absurd h (by decide)
    · rcases mem_trophies_trace_cases _ env g inp h with
        ⟨_, hm, hd⟩ | ⟨t, ht, _, hne, _⟩ | ⟨q, hq⟩ | ⟨ht, _⟩ | ⟨ht, _⟩
      · exact hdate ⟨hm, hd⟩
      · cases ht
        exact hne rfl
      · cases hq
      · exact absurd (Event.awardTrophy.inj ht).2 (by decide)
      · exact absurd (Event.awardTrophy.inj ht).2 (by decide)

/-- Witness for claim C7: on October 2 golfer 1's passing submission is granted
the anniversary trophy; on June 15 it is not. -/
theorem C7_birthday_witness :
    Event.awardTrophy 1 "happy-birthday-code-golf" ∈
        (Solution sampleEnv (some { Code := "x", Hole := "fizz-buzz", Lang := "python" })).trace ∧
      Event.awardTrophy 1 "happy-birthday-code-golf" ∉
        (Solution retainEnv (some { Code := "x", Hole := "fizz-buzz", Lang := "python" })).trace :=
  ⟨(C7_birthday sampleEnv).1 { Code := "x", Hole := "fizz-buzz", Lang := "python" }
      { ID := 1, Name := "ada" } sampleRow (by decide) (fun _ => rfl) rfl rfl (by decide)
      (by decide) rfl rfl rfl,
   (C7_birthday retainEnv).2 _ 1 (by decide)⟩

/-- Claim C7 fails as stated: on October 2 a passing submission by a signed-in
golfer in `assembly`, or to an experimental hole, is not granted the
anniversary trophy. -/
theorem C7_counterexample :
    sampleEnv.month = time.October ∧ sampleEnv.day = 2 ∧
      sampleEnv.golfer = some { ID := 1, Name := "ada" } ∧
      (sampleEnv.play "fizz-buzz" "assembly" "x").Pass = true ∧
      (Solution sampleEnv (some { Code := "x", Hole := "fizz-buzz", Lang := "assembly" })).trace =
        [Event.play "fizz-buzz" "assembly" "x"] ∧
      (sampleEnv.play "lab-hole" "python" "x").Pass = true ∧
      (Solution sampleEnv (some { Code := "x", Hole := "lab-hole", Lang := "python" })).trace =
        [Event.play "lab-hole" "python" "x"] := by
  decide

/-! ## The rank loop and the announcement -/

/-- Claim C5, as the handler has it: in a request that entered the persisted
branch and got the store's row, a rank update is passed over (no log line for
it, and it is in no announced batch) exactly when its two `Strokes.Int64`
payloads are equal, a `NULL` column reading as 0.  In particular an update
from `NULL` strokes to non-null strokes other than 0 is logged. -/
theorem C5_unchanged (env : Env) (inp : In) (g : Golfer) (row : SaveRow)
    (hv : validated env inp) (hslow : ∀ u, env.db.execErr u "slowcoach" = false)
    (hp : (env.play inp.Hole inp.Lang inp.Code).Pass = true) (hg : env.golfer = some g)
    (hexp : experimental env inp = false) (hlang : inp.Lang ≠ "assembly")
    (hrow : env.db.saveSolution inp.Code inp.Hole inp.Lang g.ID = some row) :
    (∀ rank ∈ [bytesUpdate row, charsUpdate row],
      ((Event.logPrintf (logLine env.ordinal g inp rank) ∉ (Solution env (some inp)).trace ∧
          ∀ g' h l rs, Event.logNewRecord g' h l rs ∈ (Solution env (some inp)).trace →
            rank ∉ rs) ↔
        rank.From.Strokes.Int64 = rank.To.Strokes.Int64)) ∧
    ((bytesUpdate row).From.Strokes.Int64 = row.old_bytes.getD 0 ∧
      (bytesUpdate row).To.Strokes.Int64 = row.new_bytes.getD 0 ∧
      (charsUpdate row).From.Strokes.Int64 = row.old_chars.getD 0 ∧
      (charsUpdate row).To.Strokes.Int64 = row.new_chars.getD 0) ∧
    (∀ v, row.old_bytes = none → row.new_bytes = some v → v ≠ 0 →
      Event.logPrintf (logLine env.ordinal g inp (bytesUpdate row)) ∈
        (Solution env (some inp)).trace) ∧
    (∀ v, row.old_chars = none → row.new_chars = some v → v ≠ 0 →
      Event.logPrintf (logLine env.ordinal g inp (charsUpdate row)) ∈
        (Solution env (some inp)).trace) := by
  have hT := Solution_trace_row env inp g row hv hslow hp hg hexp hlang hrow
  have hlog : ∀ rank ∈ [bytesUpdate row, charsUpdate row],
      rank.From.Strokes.Int64 ≠ rank.To.Strokes.Int64 →
      Event.logPrintf (logLine env.ordinal g inp rank) ∈ (Solution env (some inp)).trace := by
    intro rank hmem hne
    rw [hT]
    have : rank ∈ [bytesUpdate row, charsUpdate row].filter changed :=
      List.mem_filter.2 ⟨hmem, (changed_eq_true rank).2 hne⟩
    have h2 : Event.logPrintf (logLine env.ordinal g inp rank) ∈
        ([bytesUpdate row, charsUpdate row].filter changed).map
          (fun rank => Event.logPrintf (logLine env.ordinal g inp rank)) :=
      List.mem_map.2 ⟨rank, this, rfl⟩
    simp only [List.mem_cons, List.mem_append]
    exact Or.inr (Or.inr (Or.inr (Or.inl (Or.inl h2))))
  have hvals : (bytesUpdate row).From.Strokes.Int64 = row.old_bytes.getD 0 ∧
      (bytesUpdate row).To.Strokes.Int64 = row.new_bytes.getD 0 ∧
      (charsUpdate row).From.Strokes.Int64 = row.old_chars.getD 0 ∧
      (charsUpdate row).To.Strokes.Int64 = row.new_chars.getD 0 := by
    refine ⟨?_, ?_, ?_, ?_⟩
    · cases h : row.old_bytes <;> simp [bytesUpdate, scanNullInt64, h]
    · cases h : row.new_bytes <;> simp [bytesUpdate, scanNullInt64, h]
    · cases h : row.old_chars <;> simp [charsUpdate, scanNullInt64, h]
    · cases h : row.new_chars <;> simp [charsUpdate, scanNullInt64, h]
  refine ⟨?_, hvals, ?_, ?_⟩
  · intro rank hmem
    constructor
    · rintro ⟨hno, _⟩
      by_contra hne
      exact hno (hlog rank hmem hne)
    · intro heq
      constructor
      · intro he
        rw [hT] at he
        simp only [List.mem_cons, List.mem_append, List.mem_map, List.mem_filter] at he
        rcases he with he | he | he | (⟨r, ⟨_, hr⟩, he⟩ | he) | he
        · cases he
        · obtain ⟨_, h'⟩ := slowcoach_trace_cases env _ _ he
          cases h'
        · cases he
        · have hl := Event.logPrintf.inj he
          have h1 : r.From.Strokes.Int64 = rank.From.Strokes.Int64 :=
            congrArg LogLine.fromStrokes hl
          have h2 : r.To.Strokes.Int64 = rank.To.Strokes.Int64 :=
            congrArg LogLine.toStrokes hl
          exact (changed_eq_true r).1 hr (by rw [h1, h2, heq])
        · cases (mem_announce_trace _ _ _ _ he).1
        · rcases trophies_trace_kinds env g inp _ he with ⟨q, hq⟩ | ⟨u, t, ht⟩
          · cases hq
          · cases ht
      · intro g' h l rs he hin
        rw [hT] at he
        simp only [List.mem_cons, List.mem_append, List.mem_map, List.mem_filter] at he
        rcases he with he | he | he | (⟨r, _, he⟩ | he) | he
        · cases he
        · obtain ⟨_, h'⟩ := slowcoach_trace_cases env _ _ he
          cases h'
        · cases he
        · cases he
        · have h3 := (mem_announce_trace _ _ _ _ he).1
          cases h3
          exact ((isRecord_eq_true rank).1 (List.mem_filter.1 hin).2).1 heq
        · rcases trophies_trace_kinds env g inp _ he with ⟨q, hq⟩ | ⟨u, t, ht⟩
          · cases hq
          · cases ht
  · intro v h1 h2 hv0
    apply hlog _ (by simp)
    rw [hvals.1, hvals.2.1, h1, h2]
    simpa using hv0.symm
  · intro v h1 h2 hv0
    apply hlog _ (by simp)
    rw [hvals.2.2.1, hvals.2.2.2, h1, h2]
    simpa using hv0.symm

/-- Witness for claim C5: golfer 1's first solution of ten strokes is logged
for both metrics. -/
theorem C5_unchanged_witness :
    Event.logPrintf (logLine sampleEnv.ordinal { ID := 1, Name := "ada" }
        { Code := "x", Hole := "fizz-buzz", Lang := "python" } (bytesUpdate sampleRow)) ∈
      (Solution sampleEnv (some { Code := "x", Hole := "fizz-buzz", Lang := "python" })).trace :=
  (C5_unchanged sampleEnv { Code := "x", Hole := "fizz-buzz", Lang := "python" }
      { ID := 1, Name := "ada" } sampleRow (by decide) (fun _ => rfl) rfl rfl (by decide)
      (by decide) rfl).2.2.1 10 rfl rfl (by decide)

/-- Claim C5 fails as stated: a row whose old strokes are `NULL` and whose new
strokes are 0 differs as nullable values, yet both updates are passed over: the
run logs nothing and announces nothing, although each update is a sole
first place. -/
theorem C5_counterexample :
    nullRow.old_bytes = none ∧ nullRow.new_bytes = some 0 ∧
      nullRow.old_chars = none ∧ nullRow.new_chars = some 0 ∧
      nullEnv.db.saveSolution "x" "fizz-buzz" "python" 1 = some nullRow ∧
      (Solution nullEnv (some { Code := "x", Hole := "fizz-buzz", Lang := "python" })).trace =
        [Event.play "fizz-buzz" "python" "x",
         Event.saveSolution "x" "fizz-buzz" "python" 1,
         Event.queryBool (Query.polyglot 1),
         Event.queryBool (Query.charsPoints 1),
         Event.queryBool (Query.bytesPoints 1)] := by
  decide

/-- Claim C6, as the handler has it: in a request that entered the persisted
branch and got the store's row, Discord is dispatched at most once; the batch
holds exactly the updates whose strokes changed and whose `To` is rank 1 and
not joint, each once, bytes before chars; there is no dispatch when no update
qualifies. -/
theorem C6_announcement (env : Env) (inp : In) (g : Golfer) (row : SaveRow)
    (hv : validated env inp) (hslow : ∀ u, env.db.execErr u "slowcoach" = false)
    (hp : (env.play inp.Hole inp.Lang inp.Code).Pass = true) (hg : env.golfer = some g)
    (hexp : experimental env inp = false) (hlang : inp.Lang ≠ "assembly")
    (hrow : env.db.saveSolution inp.Code inp.Hole inp.Lang g.ID = some row) :
    ((Solution env (some inp)).trace.filter Event.isLogNewRecord =
      if [bytesUpdate row, charsUpdate row].filter isRecord = [] then []
      else [Event.logNewRecord g inp.Hole inp.Lang
        ([bytesUpdate row, charsUpdate row].filter isRecord)]) ∧
    (∀ rank, rank ∈ [bytesUpdate row, charsUpdate row].filter isRecord ↔
      rank ∈ [bytesUpdate row, charsUpdate row] ∧
        rank.From.Strokes.Int64 ≠ rank.To.Strokes.Int64 ∧
        rank.To.Joint.Bool = false ∧ rank.To.Rank.Int64 = 1) ∧
    ([bytesUpdate row, charsUpdate row].filter isRecord).Nodup ∧
    ([bytesUpdate row, charsUpdate row].filter isRecord).Sublist
      [bytesUpdate row, charsUpdate row] := by
  refine ⟨?_, ?_, ?_, List.filter_sublist _⟩
  · rw [Solution_trace_row env inp g row hv hslow hp hg hexp hlang hrow]
    have h1 : (slowcoach env (env.play inp.Hole inp.Lang inp.Code)).trace.filter
        Event.isLogNewRecord = [] := by
      rw [List.filter_eq_nil_iff]
      intro e he
      obtain ⟨_, h'⟩ := slowcoach_trace_cases env _ _ he
      subst h'
      simp [Event.isLogNewRecord]
    have h2 : (([bytesUpdate row, charsUpdate row].filter changed).map
        (fun rank => Event.logPrintf (logLine env.ordinal g inp rank))).filter
          Event.isLogNewRecord = [] := by
      rw [List.filter_eq_nil_iff]
      intro e he
      obtain ⟨r, _, h'⟩ := List.mem_map.1 he
      subst h'
      simp [Event.isLogNewRecord]
    have h3 : (trophies env g inp).trace.filter Event.isLogNewRecord = [] := by
      rw [List.filter_eq_nil_iff]
      intro e he
      rcases trophies_trace_kinds env g inp _ he with ⟨q, hq⟩ | ⟨u, t, ht⟩
      · subst hq
        simp [Event.isLogNewRecord]
      · subst ht
        simp [Event.isLogNewRecord]
    rw [announce_trace]
    generalize [bytesUpdate row, charsUpdate row].filter isRecord = batch
    generalize ([bytesUpdate row, charsUpdate row].filter changed).map
      (fun rank => Event.logPrintf (logLine env.ordinal g inp rank)) = logs at h2
    have h4 : Event.isLogNewRecord (Event.play inp.Hole inp.Lang inp.Code) = false := rfl
    have h5 : Event.isLogNewRecord (Event.saveSolution inp.Code inp.Hole inp.Lang g.ID) = false :=
      rfl
    rw [List.filter_cons, h4, List.filter_append, h1, List.filter_cons, h5, List.filter_append,
      List.filter_append, h2, h3]
    by_cases hb : batch = []
    · simp [hb]
    · simp [hb, Event.isLogNewRecord]
  · intro rank
    rw [List.mem_filter, isRecord_eq_true]
  · exact List.Nodup.filter _ (by simp [bytesUpdate_ne_charsUpdate])

/-- Witness for claim C6: golfer 1 takes the sole first place on bytes and a
joint first place on chars; Discord is dispatched once, with the bytes update. -/
theorem C6_announcement_witness :
    (Solution sampleEnv (some { Code := "x", Hole := "fizz-buzz", Lang := "python" })).trace.filter
        Event.isLogNewRecord =
      [Event.logNewRecord { ID := 1, Name := "ada" } "fizz-buzz" "python"
        [bytesUpdate sampleRow]] :=
  (C6_announcement sampleEnv { Code := "x", Hole := "fizz-buzz", Lang := "python" }
      { ID := 1, Name := "ada" } sampleRow (by decide) (fun _ => rfl) rfl rfl (by decide)
      (by decide) rfl).1

/-- Claim C6 fails as stated: a golfer who resubmits their own record gets two
updates with `To` rank 1 and not joint, and Discord is not dispatched, the
strokes being unchanged. -/
theorem C6_counterexample :
    retainEnv.db.saveSolution "x" "fizz-buzz" "python" 1 = some retainRow ∧
      (bytesUpdate retainRow).To.Rank = { Int64 := 1, Valid := true } ∧
      (bytesUpdate retainRow).To.Joint = { Valid := true, Bool := false } ∧
      (charsUpdate retainRow).To.Rank = { Int64 := 1, Valid := true } ∧
      (charsUpdate retainRow).To.Joint = { Valid := true, Bool := false } ∧
      (Solution retainEnv (some { Code := "x", Hole := "fizz-buzz", Lang := "python" })).trace =
        [Event.play "fizz-buzz" "python" "x",
         Event.saveSolution "x" "fizz-buzz" "python" 1,
         Event.queryBool (Query.polyglot 1),
         Event.queryBool (Query.charsPoints 1),
         Event.queryBool (Query.bytesPoints 1)] := by
  decide

/-! ## The language-pair trophies -/

/-- Claim C8, as the handler has it: a pair's trophy (`caffeinated` for java
and javascript, `tim-toady` for perl and raku) is granted only in a request
whose own language is one of the pair and whose golfer then holds exactly 4
non-failing rows of the hole in the pair's languages; in a request that
entered the persisted branch and was answered, it is granted whenever both
hold, whichever of the two languages was submitted.  The count does not depend
on the order of the rows. -/
theorem C8_pairs (env : Env) (inp : In) :
    (∀ u, Event.awardTrophy u "caffeinated" ∈ (Solution env (some inp)).trace →
      (inp.Lang = "java" ∨ inp.Lang = "javascript") ∧
        (pairRows env.db inp.Hole "java" "javascript" u).length = 4) ∧
    (∀ u, Event.awardTrophy u "tim-toady" ∈ (Solution env (some inp)).trace →
      (inp.Lang = "perl" ∨ inp.Lang = "raku") ∧
        (pairRows env.db inp.Hole "perl" "raku" u).length = 4) ∧
    (∀ g r, validated env inp → (Solution env (some inp)).result = some r →
      (env.play inp.Hole inp.Lang inp.Code).Pass = true → env.golfer = some g →
      experimental env inp = false → inp.Lang ≠ "assembly" →
      ((inp.Lang = "java" ∨ inp.Lang = "javascript") →
        (pairRows env.db inp.Hole "java" "javascript" g.ID).length = 4 →
        Event.awardTrophy g.ID "caffeinated" ∈ (Solution env (some inp)).trace) ∧
      ((inp.Lang = "perl" ∨ inp.Lang = "raku") →
        (pairRows env.db inp.Hole "perl" "raku" g.ID).length = 4 →
        Event.awardTrophy g.ID "tim-toady" ∈ (Solution env (some inp)).trace)) ∧
    (∀ rows, rows.Perm env.db.solutions → ∀ h l1 l2 u,
      (pairRows { env.db with solutions := rows } h l1 l2 u).length =
        (pairRows env.db h l1 l2 u).length) := by
  refine ⟨?_, ?_, ?_, ?_⟩
  · intro u he
    rcases mem_Solution_trace_award env _ u _ he with h | h | ⟨inp', g, row, hb, _, _, _, h⟩
    · exact absurd h (by decide)
    · exact absurd h (by decide)
    · cases hb
      rcases mem_trophies_trace_cases _ env g inp h with
        ⟨ht, _⟩ | ⟨t, ht, _, _, hne, _⟩ | ⟨q, hq⟩ | ⟨ht, hl, hq⟩ | ⟨ht, _⟩
      · exact absurd (Event.awardTrophy.inj ht).2 (by decide)
      · cases ht
        exact absurd rfl hne
      · cases hq
      · cases ht
        refine ⟨hl, ?_⟩
        simpa [DB.eval] using hq
      · exact absurd (Event.awardTrophy.inj ht).2 (by decide)
  · intro u he
    rcases mem_Solution_trace_award env _ u _ he with h | h | ⟨inp', g, row, hb, _, _, _, h⟩
    · exact absurd h (by decide)
    · exact absurd h (by decide)
    · cases hb
      rcases mem_trophies_trace_cases _ env g inp h with
        ⟨ht, _⟩ | ⟨t, ht, _, _, _, hne⟩ | ⟨q, hq⟩ | ⟨ht, _⟩ | ⟨ht, hl, hq⟩
      · exact absurd (Event.awardTrophy.inj ht).2 (by decide)
      · cases ht
        exact absurd rfl hne
      · cases hq
      · exact absurd (Event.awardTrophy.inj ht).2 (by decide)
      · cases ht
        refine ⟨hl, ?_⟩
        simpa [DB.eval] using hq
  · intro g r hv hr hp hg hexp hlang
    obtain ⟨ht, hsub⟩ := Solution_result_trophies env inp g r hv hr hp hg hexp hlang
    obtain ⟨hl, hsub'⟩ := trophies_result env g inp ht
    exact ⟨fun h1 h2 => hsub _ (hsub' _ (langPairs_caffeinated _ _ _ hl h1 h2)),
      fun h1 h2 => hsub _ (hsub' _ (langPairs_timToady _ _ _ hl h1 h2))⟩
  · intro rows hperm h l1 l2 u
    unfold pairRows
    exact (List.Perm.filter _ hperm).length_eq

/-- Witness for claim C8: golfer 1 holds the four rows of hole π in java and
javascript; a passing javascript submission to π is granted `caffeinated`, a
passing raku submission `tim-toady`. -/
theorem C8_pairs_witness :
    (pairRows pairEnv.db "π" "java" "javascript" 1).length = 4 ∧
      Event.awardTrophy 1 "caffeinated" ∈
        (Solution pairEnv (some { Code := "x", Hole := "π", Lang := "javascript" })).trace ∧
      Event.awardTrophy 1 "tim-toady" ∈
        (Solution pairEnv (some { Code := "x", Hole := "π", Lang := "raku" })).trace :=
  ⟨by decide,
   ((C8_pairs pairEnv { Code := "x", Hole := "π", Lang := "javascript" }).2.2.1
      { ID := 1, Name := "ada" }
      (Response.json (scanInto (buildOut pairEnv (pairEnv.play "π" "javascript" "x")) retainRow))
      (by decide) (by decide) rfl rfl (by decide) (by decide)).1 (by decide) (by decide),
   ((C8_pairs pairEnv { Code := "x", Hole := "π", Lang := "raku" }).2.2.1
      { ID := 1, Name := "ada" }
      (Response.json (scanInto (buildOut pairEnv (pairEnv.play "π" "raku" "x")) retainRow))
      (by decide) (by decide) rfl rfl (by decide) (by decide)).2 (by decide) (by decide)⟩

/-- Claim C8 fails as stated: golfer 1 holds exactly 4 non-failing rows of
hole π in java and javascript (and 4 in perl and raku); a passing, persisted
python submission to π is answered without a grant of either pair's trophy,
the pair queries not being run. -/
theorem C8_counterexample :
    (pairRows pairEnv.db "π" "java" "javascript" 1).length = 4 ∧
      (pairRows pairEnv.db "π" "perl" "raku" 1).length = 4 ∧
      (Solution pairEnv (some { Code := "x", Hole := "π", Lang := "python" })).result =
        some (Response.json
          (scanInto (buildOut pairEnv (pairEnv.play "π" "python" "x")) retainRow)) ∧
      (Solution pairEnv (some { Code := "x", Hole := "π", Lang := "python" })).trace =
        [Event.play "π" "python" "x",
         Event.saveSolution "x" "π" "python" 1,
         Event.queryBool (Query.polyglot 1),
         Event.queryBool (Query.charsPoints 1),
         Event.queryBool (Query.bytesPoints 1)] := by
  decide

end CodeGolf
